import Mathlib

/-! # Collision step of the 2D circle physics engine

A shallow embedding of `src/main/model/Collision.cpp` with the constants of
`include/Config.hpp`.

Modelling decisions.

* `float` arithmetic is read as exact arithmetic in a linearly ordered field `K`
  (the definitions run on `ℚ`; the theorems hold for every such field, `ℝ`
  included).  The literals `.8f`, `0.501f`, `9.81f`, `0.5f` are their decimal
  values.  Rounding is outside the model.
* `Vec.hpp` is not among the sources.  `operator+`, `operator-`, `operator*`
  (by a scalar) and `dot` are the componentwise operations; `norm` and
  `getUnit` are taken as parameters (`VecOps`) and theorems that depend on them
  assume what they return on the vectors involved.
* `Quadtree` is not among the sources.  Its `clear`, `insert` and `query` are
  taken as parameters (`QuadtreeOps`).
* `CircleEntity` is not among the sources; a `Body` holds what `getPosition`,
  `getVelocity`, `getMass` and `getRadius` return, all of them `float`s.
* `abs` in `applyContinuousFrictionIfOnBottom` is the floating-point absolute
  value (`std::abs` on a `float`).
* `resolveCollisionBetween` is embedded on the two bodies it is given; `update`
  calls it for two different entities only (line 40).
* A `std::shared_ptr<Entity>` is an `Option Ptr`: `none` is the null pointer, and
  `some a` points at the body stored at address `a` in the heap; the order on
  `Ptr` is the order of the raw addresses compared by `update`.
-/

namespace Physics

/-! ## Vectors and bodies -/

/-- Two-dimensional vector `Vec` (fields `x`, `y`). -/
structure Vec (K : Type) where
  x : K
  y : K
deriving DecidableEq, Repr

namespace Vec

variable {K : Type} [LinearOrderedField K]

/-- Componentwise sum, `Vec::operator+`. -/
def add (a b : Vec K) : Vec K := ⟨a.x + b.x, a.y + b.y⟩

/-- Componentwise difference, `Vec::operator-`. -/
def sub (a b : Vec K) : Vec K := ⟨a.x - b.x, a.y - b.y⟩

/-- Product with a scalar, `Vec::operator*(float)`. -/
def smul (a : Vec K) (s : K) : Vec K := ⟨a.x * s, a.y * s⟩

/-- Scalar product, `Vec::dot`. -/
def dot (a b : Vec K) : K := a.x * b.x + a.y * b.y

end Vec

/-- The operations of `Vec` whose bodies are not among the sources. -/
structure VecOps (K : Type) where
  /-- `Vec::norm`. -/
  norm : Vec K → K
  /-- `Vec::getUnit`. -/
  getUnit : Vec K → Vec K

/-- A circular entity: the fields read through `getPosition`, `getVelocity`,
`getMass` and `getRadius`. -/
structure Body (K : Type) where
  position : Vec K
  velocity : Vec K
  mass : K
  radius : K
deriving DecidableEq, Repr

/-! ## Configuration constants (`Config.hpp`) -/

namespace Config

variable {K : Type} [LinearOrderedField K]

/-- `Config::windowWidth`. -/
def windowWidth : K := 600

/-- `Config::windowHeight`. -/
def windowHeight : K := 600

/-- `Config::timeScale`. -/
def timeScale : K := 6

/-- `Config::restitution`. -/
def restitution : K := 8 / 10

/-- `Config::frictionCoefficient`. -/
def frictionCoefficient : K := 1

/-- `Config::renderFrequencyMultiplier`. -/
def renderFrequencyMultiplier : K := 6

/-- `Config::targetFPS`. -/
def targetFPS : K := 60

/-- `Config::fixedTimeStep`. -/
def fixedTimeStep : K := 1 / (targetFPS * renderFrequencyMultiplier)

/-- `Config::radius`. -/
def radius : K := 6

end Config

variable {K : Type} [LinearOrderedField K]

/-! ## Border collisions -/

/-- `Collision::checkCollisionBorder` (lines 82-88). -/
def checkCollisionBorder (b : Body K) : Bool :=
  decide (b.position.x + b.radius ≥ Config.windowWidth)
    || decide (b.position.y + b.radius ≥ Config.windowHeight)
    || decide (b.position.x - b.radius ≤ 0)
    || decide (b.position.y - b.radius ≤ 0)

/-- The right-border block of `resolveCollisionBorder` (lines 154-163). -/
def resolveRight (b : Body K) : Body K :=
  if b.position.x + b.radius ≥ Config.windowWidth then
    { b with
      velocity := ⟨b.velocity.x * (-1) * Config.restitution, b.velocity.y⟩
      position := ⟨Config.windowWidth - b.radius, b.position.y⟩ }
  else b

/-- The bottom-border block of `resolveCollisionBorder` (lines 165-168). -/
def resolveBottom (b : Body K) : Body K :=
  if b.position.y + b.radius ≥ Config.windowHeight then
    { b with
      position := ⟨b.position.x, Config.windowHeight - b.radius⟩
      velocity := ⟨b.velocity.x, b.velocity.y * (-Config.restitution)⟩ }
  else b

/-- The left-border block of `resolveCollisionBorder` (lines 170-179). -/
def resolveLeft (b : Body K) : Body K :=
  if b.position.x - b.radius ≤ 0 then
    { b with
      velocity := ⟨b.velocity.x * (-1) * Config.restitution, b.velocity.y⟩
      position := ⟨b.radius, b.position.y⟩ }
  else b

/-- The top-border block of `resolveCollisionBorder` (lines 181-190). -/
def resolveTop (b : Body K) : Body K :=
  if b.position.y - b.radius ≤ 0 then
    { b with
      velocity := ⟨b.velocity.x, b.velocity.y * (-1) * Config.restitution⟩
      position := ⟨b.position.x, b.radius⟩ }
  else b

/-- `Collision::resolveCollisionBorder` (lines 151-191): the four blocks run in
the order right, bottom, left, top, each on the body left by the previous one. -/
def resolveCollisionBorder (b : Body K) : Body K :=
  resolveTop (resolveLeft (resolveBottom (resolveRight b)))

/-! ## Floor friction -/

/-- The local `frictionImpulse` of `applyContinuousFrictionIfOnBottom`
(line 202). -/
def frictionImpulse : K :=
  (981 / 100) * Config.frictionCoefficient * Config.fixedTimeStep * Config.timeScale

/-- `Collision::applyContinuousFrictionIfOnBottom` (lines 196-212). -/
def applyContinuousFrictionIfOnBottom (b : Body K) : Body K :=
  let bottomY := b.position.y + b.radius
  if |bottomY - Config.windowHeight| < 5 / 10 then
    if |b.velocity.x| > 0 then
      let direction : K := if b.velocity.x > 0 then -1 else 1
      let vx := b.velocity.x + direction * frictionImpulse
      if vx * direction > 0 then
        { b with velocity := ⟨0, b.velocity.y⟩ }
      else
        { b with velocity := ⟨vx, b.velocity.y⟩ }
    else b
  else b

/-! ## Circle against circle -/

/-- `Collision::checkCollisionBetween` (lines 70-78). -/
def checkCollisionBetween (one two : Body K) : Bool :=
  let delta := one.position.sub two.position
  let distSq := delta.dot delta
  let radiusSum := one.radius + two.radius
  decide (distSq ≤ radiusSum * radiusSum)

/-- `Collision::distance` (lines 92-101): surface-to-surface distance. -/
def distance (ops : VecOps K) (one two : Body K) : K :=
  let distanceVector := one.position.sub two.position
  ops.norm distanceVector - one.radius - two.radius

/-- The local `correctionLength` of `resolveCollisionBetween` (line 114). -/
def correctionLength (ops : VecOps K) (one two : Body K) : K :=
  distance ops two one * (-1)

/-- `Collision::resolveCollisionBetween` (lines 106-146) for two distinct
entities, with the coefficient read from `Config::restitution` passed as `e`.
Returns the new `entityOne` and `entityTwo`. -/
def resolveCollisionBetweenWith (ops : VecOps K) (e : K) (one two : Body K) :
    Body K × Body K :=
  let velocityOne := one.velocity
  let velocityTwo := two.velocity
  let massOne := one.mass
  let massTwo := two.mass
  let positionDelta := two.position.sub one.position
  let correctionLength := correctionLength ops one two
  let normalVector := ops.getUnit positionDelta
  let combinedMass := massOne + massTwo
  let correctionHalf := correctionLength * (501 / 1000)
  let positionOne := one.position.sub (normalVector.smul correctionHalf)
  let positionTwo := two.position.add (normalVector.smul correctionHalf)
  let coefficientOne := massOne - e * massTwo
  let coefficientTwo := 1 + e
  let coefficientThree := massTwo - e * massOne
  let velocityOneNormal := velocityOne.dot normalVector
  let velocityTwoNormal := velocityTwo.dot normalVector
  let velocityOneNormalAfter :=
    (velocityOneNormal * coefficientOne + velocityTwoNormal * coefficientTwo * massTwo)
      / combinedMass
  let velocityTwoNormalAfter :=
    (velocityTwoNormal * coefficientThree + velocityOneNormal * coefficientTwo * massOne)
      / combinedMass
  let velocityOneNormalVector := normalVector.smul velocityOneNormal
  let velocityTwoNormalVector := normalVector.smul velocityTwoNormal
  let velocityOneTangent := velocityOne.sub velocityOneNormalVector
  let velocityTwoTangent := velocityTwo.sub velocityTwoNormalVector
  let velocityOneNormalAfterVector := normalVector.smul velocityOneNormalAfter
  let velocityTwoNormalAfterVector := normalVector.smul velocityTwoNormalAfter
  ({ one with
      position := positionOne
      velocity := velocityOneTangent.add velocityOneNormalAfterVector },
   { two with
      position := positionTwo
      velocity := velocityTwoTangent.add velocityTwoNormalAfterVector })

/-- `Collision::resolveCollisionBetween` with `Config::restitution`. -/
def resolveCollisionBetween (ops : VecOps K) (one two : Body K) : Body K × Body K :=
  resolveCollisionBetweenWith ops Config.restitution one two

/-- `Collision::checkAndResolveBetween` (lines 61-66) on the two bodies. -/
def checkAndResolveBetween (ops : VecOps K) (one two : Body K) : Body K × Body K :=
  if checkCollisionBetween one two then resolveCollisionBetween ops one two
  else (one, two)

/-! ## The tick -/

/-- Address of an entity; `update` compares these with `>=` (line 43). -/
abbrev Ptr := Nat

/-- The entities behind the pointers. -/
abbrev Heap (K : Type) := Ptr → Body K

/-- Query box `AABB` built from its two corners. -/
structure AABB (K : Type) where
  lo : Vec K
  hi : Vec K

/-- The operations of `Quadtree` used by `update`; their bodies are not among
the sources.  The tree stores pointers, so `insert` and `query` may read the
entities. -/
structure QuadtreeOps (K : Type) (Q : Type) where
  /-- `Quadtree::clear`. -/
  clear : Q → Q
  /-- `Quadtree::insert`. -/
  insert : Q → Heap K → Ptr → Q
  /-- `Quadtree::query`: the pointers appended to the (empty) output buffer. -/
  query : Q → Heap K → AABB K → List (Option Ptr)

/-- State of a tick: the entities, the quadtree, and (ghost) the calls of
`checkAndResolveBetween` made so far, oldest first. -/
structure Sim (K : Type) (Q : Type) where
  heap : Heap K
  qt : Q
  calls : List (Ptr × Ptr)

/-- The call `checkAndResolveBetween(entityPtr, otherPtr)` of line 47, for
`a ≠ b`: both entities are rewritten and the call is recorded. -/
def callCheckAndResolveBetween {Q : Type} (ops : VecOps K) (s : Sim K Q) (a b : Ptr) :
    Sim K Q :=
  let r := checkAndResolveBetween ops (s.heap a) (s.heap b)
  { s with
    heap := Function.update (Function.update s.heap a r.1) b r.2
    calls := s.calls ++ [(a, b)] }

/-- One round of the inner loop of `update` (lines 39-48). -/
def nearbyStep {Q : Type} (ops : VecOps K) (a : Ptr) (s : Sim K Q) (other : Option Ptr) :
    Sim K Q :=
  match other with
  | none => s
  | some b =>
    if b = a then s
    else if a ≥ b then s
    else callCheckAndResolveBetween ops s a b

/-- One round of the outer loop of `update` (lines 21-55). -/
def entityStep {Q : Type} (ops : VecOps K) (qops : QuadtreeOps K Q) (s : Sim K Q)
    (entityPtr : Option Ptr) : Sim K Q :=
  match entityPtr with
  | none => s
  | some a =>
    let radiusA := (s.heap a).radius
    let position := (s.heap a).position
    let reach := radiusA + Config.radius
    let range : AABB K :=
      ⟨⟨position.x - reach, position.y - reach⟩, ⟨position.x + reach, position.y + reach⟩⟩
    let nearbyBuffer := qops.query s.qt s.heap range
    let s1 := nearbyBuffer.foldl (nearbyStep ops a) s
    let s2 : Sim K Q :=
      if checkCollisionBorder (s1.heap a) then
        { s1 with heap := Function.update s1.heap a (resolveCollisionBorder (s1.heap a)) }
      else s1
    { s2 with heap := Function.update s2.heap a (applyContinuousFrictionIfOnBottom (s2.heap a)) }

/-- The rebuild of the quadtree at the start of `update` (lines 11-16). -/
def rebuild {Q : Type} (qops : QuadtreeOps K Q) (heap : Heap K) (q : Q)
    (entities : List (Option Ptr)) : Q :=
  entities.foldl
    (fun t entityPtr =>
      match entityPtr with
      | none => t
      | some a => qops.insert t heap a)
    (qops.clear q)

/-- `Collision::update` (lines 10-56), started with no call recorded. -/
def update {Q : Type} (ops : VecOps K) (qops : QuadtreeOps K Q) (heap : Heap K) (q : Q)
    (entities : List (Option Ptr)) : Sim K Q :=
  entities.foldl (entityStep ops qops) ⟨heap, rebuild qops heap q entities, []⟩

/-! ## Specification of the vector operations taken as parameters -/

/-- `d` is the Euclidean length of `v`: the non-negative root of `v.dot v`. -/
def IsLength (v : Vec K) (d : K) : Prop := 0 ≤ d ∧ d * d = v.dot v

/-- On the vector `v`, `ops.norm` is the Euclidean length and, when that length
is not zero, `ops.getUnit` divides both components by it. -/
def Euclidean (ops : VecOps K) (v : Vec K) : Prop :=
  IsLength v (ops.norm v)
    ∧ (ops.norm v ≠ 0 → ops.getUnit v = ⟨v.x / ops.norm v, v.y / ops.norm v⟩)

/-- Vector operations on `ℚ`, exact on every vector of rational length. -/
def ratOps : VecOps ℚ where
  norm v := Rat.sqrt (v.dot v)
  getUnit v := ⟨v.x / Rat.sqrt (v.dot v), v.y / Rat.sqrt (v.dot v)⟩

/-- Whether the point `p` lies in the box `range`. -/
def AABB.contains (range : AABB K) (p : Vec K) : Bool :=
  decide (range.lo.x ≤ p.x) && decide (p.x ≤ range.hi.x)
    && decide (range.lo.y ≤ p.y) && decide (p.y ≤ range.hi.y)

/-- A brute-force spatial index used to instantiate `QuadtreeOps` in examples:
it keeps the inserted pointers in a list and answers a query with the stored
entities whose centre lies in the box. -/
def listIndex : QuadtreeOps K (List Ptr) where
  clear _ := []
  insert q _ a := q ++ [a]
  query q heap range := (q.filter (fun a => range.contains (heap a).position)).map some

/-- The local `range` of `update` (lines 27-34) for an entity read as `b`: the box
centred on the position and extended by `reach = radiusA + Config::radius`. -/
def queryRange (b : Body K) : AABB K :=
  let radiusA := b.radius
  let position := b.position
  let reach := radiusA + Config.radius
  ⟨⟨position.x - reach, position.y - reach⟩, ⟨position.x + reach, position.y + reach⟩⟩

/-- Kinetic energy `m |v|^2 / 2` of a body. -/
def kineticEnergy (b : Body K) : K := 1 / 2 * b.mass * b.velocity.dot b.velocity

@[simp] theorem resolveCollisionBorder_radius (b : Body K) :
    (resolveCollisionBorder b).radius = b.radius := by
  simp only [resolveCollisionBorder, resolveTop, resolveLeft, resolveBottom, resolveRight]
  split_ifs <;> rfl

@[simp] theorem resolveCollisionBorder_mass (b : Body K) :
    (resolveCollisionBorder b).mass = b.mass := by
  simp only [resolveCollisionBorder, resolveTop, resolveLeft, resolveBottom, resolveRight]
  split_ifs <;> rfl

theorem resolveCollisionBorder_position_x (b : Body K) :
    (resolveCollisionBorder b).position.x =
      if b.position.x + b.radius ≥ 600 then
        (if 600 - b.radius - b.radius ≤ 0 then b.radius else 600 - b.radius)
      else if b.position.x - b.radius ≤ 0 then b.radius else b.position.x := by
  simp only [resolveCollisionBorder, resolveTop, resolveLeft, resolveBottom, resolveRight,
    Config.windowWidth, Config.windowHeight]
  split_ifs <;> rfl

theorem resolveCollisionBorder_position_y (b : Body K) :
    (resolveCollisionBorder b).position.y =
      if b.position.y + b.radius ≥ 600 then
        (if 600 - b.radius - b.radius ≤ 0 then b.radius else 600 - b.radius)
      else if b.position.y - b.radius ≤ 0 then b.radius else b.position.y := by
  simp only [resolveCollisionBorder, resolveTop, resolveLeft, resolveBottom, resolveRight,
    Config.windowWidth, Config.windowHeight]
  split_ifs <;> rfl

theorem resolveCollisionBorder_velocity_x (b : Body K) :
    (resolveCollisionBorder b).velocity.x =
      if b.position.x + b.radius ≥ 600 then
        (if 600 - b.radius - b.radius ≤ 0 then
          b.velocity.x * (-1) * Config.restitution * (-1) * Config.restitution
         else b.velocity.x * (-1) * Config.restitution)
      else if b.position.x - b.radius ≤ 0 then b.velocity.x * (-1) * Config.restitution
      else b.velocity.x := by
  simp only [resolveCollisionBorder, resolveTop, resolveLeft, resolveBottom, resolveRight,
    Config.windowWidth, Config.windowHeight]
  split_ifs <;> rfl

theorem resolveCollisionBorder_velocity_y (b : Body K) :
    (resolveCollisionBorder b).velocity.y =
      if b.position.y + b.radius ≥ 600 then
        (if 600 - b.radius - b.radius ≤ 0 then
          b.velocity.y * (-Config.restitution) * (-1) * Config.restitution
         else b.velocity.y * (-Config.restitution))
      else if b.position.y - b.radius ≤ 0 then b.velocity.y * (-1) * Config.restitution
      else b.velocity.y := by
  simp only [resolveCollisionBorder, resolveTop, resolveLeft, resolveBottom, resolveRight,
    Config.windowWidth, Config.windowHeight]
  split_ifs <;> rfl

omit [LinearOrderedField K] in
theorem Vec.ext_xy {a b : Vec K} (hx : a.x = b.x) (hy : a.y = b.y) : a = b := by
  cases a; cases b; simp_all

omit [LinearOrderedField K] in
theorem Body.ext_fields {a b : Body K} (hp : a.position = b.position)
    (hv : a.velocity = b.velocity) (hm : a.mass = b.mass) (hr : a.radius = b.radius) :
    a = b := by
  cases a; cases b; simp_all

/-! ## C1: boundary resolution applied twice -/

/-- C1, counterexample: the body at (597, 300) with velocity (10, 0) and radius 6
is resolved to position (594, 300) with velocity (-8, 0); it is then tangent to
the right edge, `594 + 6 >= 600` holds, and a second application turns the
velocity into (32/5, 0): applying twice is not the same as applying once. -/
theorem resolveCollisionBorder_twice_counterexample :
    resolveCollisionBorder (⟨⟨597, 300⟩, ⟨10, 0⟩, 1, 6⟩ : Body ℚ)
        = ⟨⟨594, 300⟩, ⟨-8, 0⟩, 1, 6⟩
      ∧ resolveCollisionBorder (resolveCollisionBorder (⟨⟨597, 300⟩, ⟨10, 0⟩, 1, 6⟩ : Body ℚ))
        = ⟨⟨594, 300⟩, ⟨32 / 5, 0⟩, 1, 6⟩
      ∧ resolveCollisionBorder (resolveCollisionBorder (⟨⟨597, 300⟩, ⟨10, 0⟩, 1, 6⟩ : Body ℚ))
        ≠ resolveCollisionBorder (⟨⟨597, 300⟩, ⟨10, 0⟩, 1, 6⟩ : Body ℚ) := by
  norm_num [resolveCollisionBorder, resolveTop, resolveLeft, resolveBottom, resolveRight,
    Config.windowWidth, Config.windowHeight, Config.restitution]

/-- C1, amended: for every body, applying `resolveCollisionBorder` twice gives
the same position, radius and mass as applying it once.  For `0 < 2r < 600` the
second application multiplies by `-restitution` once more each velocity
component whose edge the body overlapped or touched (a resolved body is tangent
to that edge and tangency counts as contact), so the second application changes
nothing exactly when every such component is zero. -/
theorem resolveCollisionBorder_twice (b : Body K) :
    (resolveCollisionBorder (resolveCollisionBorder b)).position
        = (resolveCollisionBorder b).position
      ∧ (resolveCollisionBorder (resolveCollisionBorder b)).radius
        = (resolveCollisionBorder b).radius
      ∧ (resolveCollisionBorder (resolveCollisionBorder b)).mass
        = (resolveCollisionBorder b).mass
      ∧ (0 < b.radius → 2 * b.radius < 600 →
          (resolveCollisionBorder (resolveCollisionBorder b)).velocity.x
              = (if b.position.x + b.radius ≥ 600 ∨ b.position.x - b.radius ≤ 0 then
                  -Config.restitution * (resolveCollisionBorder b).velocity.x
                else (resolveCollisionBorder b).velocity.x)
            ∧ (resolveCollisionBorder (resolveCollisionBorder b)).velocity.y
              = (if b.position.y + b.radius ≥ 600 ∨ b.position.y - b.radius ≤ 0 then
                  -Config.restitution * (resolveCollisionBorder b).velocity.y
                else (resolveCollisionBorder b).velocity.y)
            ∧ (resolveCollisionBorder (resolveCollisionBorder b) = resolveCollisionBorder b
                ↔ ((b.position.x + b.radius ≥ 600 ∨ b.position.x - b.radius ≤ 0) →
                      b.velocity.x = 0)
                  ∧ ((b.position.y + b.radius ≥ 600 ∨ b.position.y - b.radius ≤ 0) →
                      b.velocity.y = 0))) := by
  have hx : (resolveCollisionBorder (resolveCollisionBorder b)).position.x
      = (resolveCollisionBorder b).position.x := by
    rw [resolveCollisionBorder_position_x (resolveCollisionBorder b)]
    simp only [resolveCollisionBorder_radius]
    rw [resolveCollisionBorder_position_x b]
    split_ifs <;> first | rfl | linarith
  have hy : (resolveCollisionBorder (resolveCollisionBorder b)).position.y
      = (resolveCollisionBorder b).position.y := by
    rw [resolveCollisionBorder_position_y (resolveCollisionBorder b)]
    simp only [resolveCollisionBorder_radius]
    rw [resolveCollisionBorder_position_y b]
    split_ifs <;> first | rfl | linarith
  have hpos := Vec.ext_xy hx hy
  refine ⟨hpos, by simp, by simp, ?_⟩
  intro hr0 hr
  have hvx : (resolveCollisionBorder (resolveCollisionBorder b)).velocity.x
      = (if b.position.x + b.radius ≥ 600 ∨ b.position.x - b.radius ≤ 0 then
          -Config.restitution * (resolveCollisionBorder b).velocity.x
        else (resolveCollisionBorder b).velocity.x) := by
    rw [resolveCollisionBorder_velocity_x (resolveCollisionBorder b)]
    simp only [resolveCollisionBorder_radius]
    rw [resolveCollisionBorder_position_x b]
    by_cases hA : b.position.x + b.radius ≥ 600 <;>
      by_cases hB : b.position.x - b.radius ≤ 0 <;>
      simp only [hA, hB, or_self, or_true, true_or, if_true, if_false] <;>
      (try split_ifs) <;>
      first | rfl | ring1 | (exfalso; linarith)
  have hvy : (resolveCollisionBorder (resolveCollisionBorder b)).velocity.y
      = (if b.position.y + b.radius ≥ 600 ∨ b.position.y - b.radius ≤ 0 then
          -Config.restitution * (resolveCollisionBorder b).velocity.y
        else (resolveCollisionBorder b).velocity.y) := by
    rw [resolveCollisionBorder_velocity_y (resolveCollisionBorder b)]
    simp only [resolveCollisionBorder_radius]
    rw [resolveCollisionBorder_position_y b]
    by_cases hA : b.position.y + b.radius ≥ 600 <;>
      by_cases hB : b.position.y - b.radius ≤ 0 <;>
      simp only [hA, hB, or_self, or_true, true_or, if_true, if_false] <;>
      (try split_ifs) <;>
      first | rfl | ring1 | (exfalso; linarith)
  refine ⟨hvx, hvy, ?_⟩
  have he : (Config.restitution : K) = 8 / 10 := rfl
  constructor
  · intro h
    have h1 := congrArg (fun c => c.velocity.x) h
    have h2 := congrArg (fun c => c.velocity.y) h
    simp only [hvx, hvy] at h1 h2
    constructor
    · intro hc
      rw [if_pos hc, resolveCollisionBorder_velocity_x b, he] at h1
      split_ifs at h1 <;> linarith
    · intro hc
      rw [if_pos hc, resolveCollisionBorder_velocity_y b, he] at h2
      split_ifs at h2 <;> linarith
  · rintro ⟨h1, h2⟩
    refine Body.ext_fields hpos (Vec.ext_xy ?_ ?_) (by simp) (by simp)
    · rw [hvx]
      split_ifs with hc
      · rw [resolveCollisionBorder_velocity_x b, h1 hc]
        split_ifs <;> ring1
      · rfl
    · rw [hvy]
      split_ifs with hc
      · rw [resolveCollisionBorder_velocity_y b, h2 hc]
        split_ifs <;> ring1
      · rfl

/-- C1, witness: the amended statement at the body of the counterexample, where
the second application multiplies the horizontal velocity `-8` by `-8/10`. -/
theorem resolveCollisionBorder_twice_witness :
    (0 : ℚ) < 6 ∧ (2 : ℚ) * 6 < 600
      ∧ (resolveCollisionBorder (resolveCollisionBorder (⟨⟨597, 300⟩, ⟨10, 0⟩, 1, 6⟩ : Body ℚ))).position
          = (resolveCollisionBorder (⟨⟨597, 300⟩, ⟨10, 0⟩, 1, 6⟩ : Body ℚ)).position
      ∧ (resolveCollisionBorder (resolveCollisionBorder (⟨⟨597, 300⟩, ⟨10, 0⟩, 1, 6⟩ : Body ℚ))).velocity.x
          = -Config.restitution
              * (resolveCollisionBorder (⟨⟨597, 300⟩, ⟨10, 0⟩, 1, 6⟩ : Body ℚ)).velocity.x := by
  have h := resolveCollisionBorder_twice (⟨⟨597, 300⟩, ⟨10, 0⟩, 1, 6⟩ : Body ℚ)
  have hv := (h.2.2.2 (by norm_num) (by norm_num)).1
  rw [if_pos (Or.inl (by norm_num))] at hv
  exact ⟨by norm_num, by norm_num, h.1, hv⟩

/-! ## C2: the right edge -/

/-- C2: a body with `r < windowWidth / 2` (in particular with
`0 < r < windowWidth / 2`) that penetrates the right boundary
(`x + r > windowWidth`) has, after `resolveCollisionBorder`, x-position exactly
`windowWidth - r` and x-velocity `-restitution` times the old one, so its
magnitude is scaled by `restitution` and its sign is flipped. -/
theorem resolveCollisionBorder_right (b : Body K) (hr : b.radius < Config.windowWidth / 2)
    (hx : b.position.x + b.radius > Config.windowWidth) :
    (resolveCollisionBorder b).position.x = Config.windowWidth - b.radius
      ∧ (resolveCollisionBorder b).velocity.x = -Config.restitution * b.velocity.x
      ∧ |(resolveCollisionBorder b).velocity.x| = Config.restitution * |b.velocity.x|
      ∧ (resolveCollisionBorder b).velocity.x * b.velocity.x ≤ 0 := by
  simp only [Config.windowWidth] at hr hx ⊢
  have hA : b.position.x + b.radius ≥ 600 := le_of_lt hx
  have hB : ¬ (600 - b.radius - b.radius ≤ 0) := by
    intro h
    linarith
  have hv : (resolveCollisionBorder b).velocity.x = -Config.restitution * b.velocity.x := by
    rw [resolveCollisionBorder_velocity_x, if_pos hA, if_neg hB]
    ring
  have hp : (resolveCollisionBorder b).position.x = 600 - b.radius := by
    rw [resolveCollisionBorder_position_x, if_pos hA, if_neg hB]
  have he : (0 : K) ≤ Config.restitution := by
    simp only [Config.restitution]
    norm_num
  refine ⟨hp, hv, ?_, ?_⟩
  · rw [hv, abs_mul, abs_neg, abs_of_nonneg he]
  · rw [hv]
    nlinarith [mul_nonneg he (mul_self_nonneg b.velocity.x)]

/-- C2, witness: the body at (597, 300) with radius 6 and velocity (10, 0). -/
theorem resolveCollisionBorder_right_witness :
    (resolveCollisionBorder (⟨⟨597, 300⟩, ⟨10, 0⟩, 1, 6⟩ : Body ℚ)).position.x
        = Config.windowWidth - 6
      ∧ (resolveCollisionBorder (⟨⟨597, 300⟩, ⟨10, 0⟩, 1, 6⟩ : Body ℚ)).velocity.x
        = -Config.restitution * 10 :=
  have h := resolveCollisionBorder_right (⟨⟨597, 300⟩, ⟨10, 0⟩, 1, 6⟩ : Body ℚ)
    (by norm_num [Config.windowWidth]) (by norm_num [Config.windowWidth])
  ⟨h.1, h.2.1⟩

/-! ## C8: no penetration is left -/

/-- C8: for a body whose diameter does not exceed the window (`2r <= 600`, in
particular `0 < 2r <= 600`), after `resolveCollisionBorder` the body lies inside the boundary rectangle,
`r <= x <= windowWidth - r` and `r <= y <= windowHeight - r`, and it is exactly
tangent to every edge it overlapped or touched before. -/
theorem resolveCollisionBorder_inside (b : Body K) (hr : 2 * b.radius ≤ 600) :
    (b.radius ≤ (resolveCollisionBorder b).position.x
        ∧ (resolveCollisionBorder b).position.x ≤ Config.windowWidth - b.radius
        ∧ b.radius ≤ (resolveCollisionBorder b).position.y
        ∧ (resolveCollisionBorder b).position.y ≤ Config.windowHeight - b.radius)
      ∧ (b.position.x + b.radius ≥ Config.windowWidth →
          (resolveCollisionBorder b).position.x + b.radius = Config.windowWidth)
      ∧ (b.position.y + b.radius ≥ Config.windowHeight →
          (resolveCollisionBorder b).position.y + b.radius = Config.windowHeight)
      ∧ (b.position.x - b.radius ≤ 0 → (resolveCollisionBorder b).position.x - b.radius = 0)
      ∧ (b.position.y - b.radius ≤ 0 → (resolveCollisionBorder b).position.y - b.radius = 0) := by
  simp only [Config.windowWidth, Config.windowHeight]
  rw [resolveCollisionBorder_position_x, resolveCollisionBorder_position_y]
  refine ⟨⟨?_, ?_, ?_, ?_⟩, ?_, ?_, ?_, ?_⟩
  · split_ifs <;> linarith
  · split_ifs <;> linarith
  · split_ifs <;> linarith
  · split_ifs <;> linarith
  · intro h
    split_ifs <;> linarith
  · intro h
    split_ifs <;> linarith
  · intro h
    split_ifs <;> linarith
  · intro h
    split_ifs <;> linarith

/-- C8, witness: a body of radius 6 that overlaps the right and the top edge. -/
theorem resolveCollisionBorder_inside_witness :
    (6 ≤ (resolveCollisionBorder (⟨⟨597, 2⟩, ⟨10, -3⟩, 1, 6⟩ : Body ℚ)).position.x
        ∧ (resolveCollisionBorder (⟨⟨597, 2⟩, ⟨10, -3⟩, 1, 6⟩ : Body ℚ)).position.x
            ≤ Config.windowWidth - 6
        ∧ 6 ≤ (resolveCollisionBorder (⟨⟨597, 2⟩, ⟨10, -3⟩, 1, 6⟩ : Body ℚ)).position.y
        ∧ (resolveCollisionBorder (⟨⟨597, 2⟩, ⟨10, -3⟩, 1, 6⟩ : Body ℚ)).position.y
            ≤ Config.windowHeight - 6)
      ∧ (resolveCollisionBorder (⟨⟨597, 2⟩, ⟨10, -3⟩, 1, 6⟩ : Body ℚ)).position.x + 6
          = Config.windowWidth
      ∧ (resolveCollisionBorder (⟨⟨597, 2⟩, ⟨10, -3⟩, 1, 6⟩ : Body ℚ)).position.y - 6 = 0 :=
  have h := resolveCollisionBorder_inside (⟨⟨597, 2⟩, ⟨10, -3⟩, 1, 6⟩ : Body ℚ)
    (by norm_num)
  ⟨h.1, h.2.1 (by norm_num [Config.windowWidth]), h.2.2.2.2 (by norm_num)⟩

/-! ## C3: a single body in the top-left corner -/

/-- The inner loop of `update` changes nothing when every candidate is null or
the entity itself. -/
theorem foldl_nearbyStep_self {Q : Type} (ops : VecOps K) (a : Ptr) (l : List (Option Ptr))
    (s : Sim K Q) (hl : ∀ p ∈ l, p = none ∨ p = some a) :
    l.foldl (nearbyStep ops a) s = s := by
  induction l generalizing s with
  | nil => rfl
  | cons p l ih =>
    have hp : nearbyStep ops a s p = s := by
      rcases hl p (List.mem_cons_self p l) with h | h
      · rw [h]
        rfl
      · rw [h]
        simp [nearbyStep]
    rw [List.foldl_cons, hp]
    exact ih s (fun p' hp' => hl p' (List.mem_cons_of_mem p hp'))

/-- C3, counterexample: with the body at (0,0), velocity (0,0), radius 6, mass 1
as the only entity, one call of `update` moves it to (6,6): its position does
not stay (0,0). -/
theorem update_corner_counterexample :
    (update ratOps listIndex (fun _ => (⟨⟨0, 0⟩, ⟨0, 0⟩, 1, 6⟩ : Body ℚ)) [] [some 0]).heap 0
        = ⟨⟨6, 6⟩, ⟨0, 0⟩, 1, 6⟩
      ∧ ((update ratOps listIndex (fun _ => (⟨⟨0, 0⟩, ⟨0, 0⟩, 1, 6⟩ : Body ℚ)) [] [some 0]).heap
          0).position ≠ ⟨0, 0⟩ := by
  have h : (update ratOps listIndex (fun _ => (⟨⟨0, 0⟩, ⟨0, 0⟩, 1, 6⟩ : Body ℚ)) []
      [some 0]).heap 0 = ⟨⟨6, 6⟩, ⟨0, 0⟩, 1, 6⟩ := by
    simp [update, rebuild, entityStep, nearbyStep, listIndex, AABB.contains, Config.radius,
      checkCollisionBorder, Config.windowWidth, Config.windowHeight, resolveCollisionBorder,
      resolveTop, resolveLeft, resolveBottom, resolveRight, applyContinuousFrictionIfOnBottom,
      Config.restitution]
    norm_num
  rw [h]
  exact ⟨rfl, by simp⟩

/-- C3, amended: for a body list containing the single body at (0,0) with
velocity (0,0), radius 6 and mass 1, and a spatial index that returns only
entities of the list, one call of `update` leaves the velocity (0,0) and clamps
the position to (6,6), tangent to the left and top edges; no pair is checked
and no other entity is written. -/
theorem update_corner {Q : Type} (ops : VecOps K) (qops : QuadtreeOps K Q) (heap : Heap K)
    (q : Q) (a : Ptr) (ha : heap a = ⟨⟨0, 0⟩, ⟨0, 0⟩, 1, 6⟩)
    (hq : ∀ h range, ∀ p ∈ qops.query (rebuild qops heap q [some a]) h range,
      p = none ∨ p = some a) :
    (update ops qops heap q [some a]).heap a = ⟨⟨6, 6⟩, ⟨0, 0⟩, 1, 6⟩
      ∧ (update ops qops heap q [some a]).calls = []
      ∧ ∀ c, c ≠ a → (update ops qops heap q [some a]).heap c = heap c := by
  have hfold := fun range => foldl_nearbyStep_self ops a
    (qops.query (rebuild qops heap q [some a]) heap range)
    (⟨heap, rebuild qops heap q [some a], []⟩ : Sim K Q) (hq heap range)
  have hc : checkCollisionBorder (⟨⟨0, 0⟩, ⟨0, 0⟩, 1, 6⟩ : Body K) = true := by
    norm_num [checkCollisionBorder]
  have hres : resolveCollisionBorder (⟨⟨0, 0⟩, ⟨0, 0⟩, 1, 6⟩ : Body K)
      = ⟨⟨6, 6⟩, ⟨0, 0⟩, 1, 6⟩ := by
    norm_num [resolveCollisionBorder, resolveTop, resolveLeft, resolveBottom, resolveRight,
      Config.windowWidth, Config.windowHeight]
  have hfr : applyContinuousFrictionIfOnBottom (⟨⟨6, 6⟩, ⟨0, 0⟩, 1, 6⟩ : Body K)
      = ⟨⟨6, 6⟩, ⟨0, 0⟩, 1, 6⟩ := by
    norm_num [applyContinuousFrictionIfOnBottom]
  refine ⟨?_, ?_, ?_⟩
  · simp only [update, List.foldl_cons, List.foldl_nil, entityStep, hfold, ha, hc, if_true,
      hres, Function.update_same, hfr]
  · simp only [update, List.foldl_cons, List.foldl_nil, entityStep, hfold, ha, hc, if_true]
  · intro c hca
    simp only [update, List.foldl_cons, List.foldl_nil, entityStep, hfold, ha, hc, if_true,
      Function.update_noteq hca]

/-- C3, witness: the brute-force index and address 0. -/
theorem update_corner_witness :
    (update ratOps listIndex (fun _ => (⟨⟨0, 0⟩, ⟨0, 0⟩, 1, 6⟩ : Body ℚ)) [] [some 0]).heap 0
        = ⟨⟨6, 6⟩, ⟨0, 0⟩, 1, 6⟩
      ∧ (update ratOps listIndex (fun _ => (⟨⟨0, 0⟩, ⟨0, 0⟩, 1, 6⟩ : Body ℚ)) [] [some 0]).calls
        = [] :=
  have h := update_corner ratOps listIndex (fun _ => (⟨⟨0, 0⟩, ⟨0, 0⟩, 1, 6⟩ : Body ℚ)) [] 0 rfl
    (by
      intro h range p hp
      simp only [rebuild, listIndex, List.foldl_cons, List.foldl_nil, List.nil_append,
        List.mem_map, List.mem_filter, List.mem_singleton] at hp
      obtain ⟨c, ⟨hc, _⟩, rfl⟩ := hp
      exact Or.inr (by rw [hc]))
  ⟨h.1, h.2.1⟩

/-! ## The narrow phase (C10) -/

/-- For a non-negative bound `t`, a Euclidean length `d` of `v` is at most `t`
exactly when `v.dot v` is at most `t * t`. -/
theorem IsLength.le_iff {v : Vec K} {d t : K} (hd : IsLength v d) (ht : 0 ≤ t) :
    d ≤ t ↔ v.dot v ≤ t * t := by
  obtain ⟨hd0, hdd⟩ := hd
  rw [← hdd]
  constructor
  · intro h
    exact mul_self_le_mul_self hd0 h
  · intro h
    by_contra hlt
    have hlt' : t < d := lt_of_not_ge hlt
    have := mul_self_lt_mul_self ht hlt'
    linarith

/-- The Euclidean length of a vector is unique. -/
theorem IsLength.unique {v : Vec K} {d d' : K} (hd : IsLength v d) (hd' : IsLength v d') :
    d = d' := by
  have h1 : d ≤ d' := (hd.le_iff hd'.1).2 (le_of_eq hd'.2.symm)
  have h2 : d' ≤ d := (hd'.le_iff hd.1).2 (le_of_eq hd.2.symm)
  exact le_antisymm h1 h2

omit [LinearOrderedField K] in
theorem Function.update_update_self (heap : Heap K) (a b : Ptr) :
    Function.update (Function.update heap a (heap a)) b (heap b) = heap := by
  funext c
  by_cases hb : c = b
  · subst hb
    simp
  · by_cases ha : c = a
    · subst ha
      simp [Function.update_noteq hb]
    · simp [Function.update_noteq hb, Function.update_noteq ha]

/-- A pair check on circles that are apart: for two circles with non-negative
radii whose centre distance `d` (the Euclidean length of the difference of the
positions) is strictly greater than the sum of the radii,
`checkCollisionBetween` is false and `checkAndResolveBetween` returns both
bodies unchanged; hence the call made by `update` for two such entities leaves
every entity as it was. -/
theorem checkAndResolveBetween_apart (ops : VecOps K) (one two : Body K) (d : K)
    (hd : IsLength (one.position.sub two.position) d)
    (hr1 : 0 ≤ one.radius) (hr2 : 0 ≤ two.radius) (h : one.radius + two.radius < d) :
    checkCollisionBetween one two = false
      ∧ checkAndResolveBetween ops one two = (one, two)
      ∧ ∀ {Q : Type} (s : Sim K Q) (a b : Ptr), s.heap a = one → s.heap b = two →
          (callCheckAndResolveBetween ops s a b).heap = s.heap
            ∧ (nearbyStep ops a s (some b)).heap = s.heap := by
  have hc : checkCollisionBetween one two = false := by
    simp only [checkCollisionBetween, decide_eq_false_iff_not]
    intro hle
    have := (hd.le_iff (add_nonneg hr1 hr2)).2 hle
    linarith
  have hres : checkAndResolveBetween ops one two = (one, two) := by
    simp [checkAndResolveBetween, hc]
  refine ⟨hc, hres, ?_⟩
  intro Q s a b ha hb
  have hcall : (callCheckAndResolveBetween ops s a b).heap = s.heap := by
    simp only [callCheckAndResolveBetween, ha, hb, hres]
    rw [← ha, ← hb]
    exact Function.update_update_self s.heap a b
  refine ⟨hcall, ?_⟩
  simp only [nearbyStep]
  split_ifs
  · rfl
  · rfl
  · exact hcall

/-- Example of a pair check on circles that are apart: centres (0,0) and (30,40)
at distance 50, radii 6 and 6. -/
theorem checkAndResolveBetween_apart_witness :
    checkCollisionBetween (⟨⟨0, 0⟩, ⟨1, 2⟩, 1, 6⟩ : Body ℚ) ⟨⟨30, 40⟩, ⟨-3, 1⟩, 2, 6⟩ = false
      ∧ checkAndResolveBetween ratOps (⟨⟨0, 0⟩, ⟨1, 2⟩, 1, 6⟩ : Body ℚ)
          ⟨⟨30, 40⟩, ⟨-3, 1⟩, 2, 6⟩
        = (⟨⟨0, 0⟩, ⟨1, 2⟩, 1, 6⟩, ⟨⟨30, 40⟩, ⟨-3, 1⟩, 2, 6⟩) :=
  have h := checkAndResolveBetween_apart ratOps (⟨⟨0, 0⟩, ⟨1, 2⟩, 1, 6⟩ : Body ℚ)
    ⟨⟨30, 40⟩, ⟨-3, 1⟩, 2, 6⟩ 50
    (by norm_num [IsLength, Vec.sub, Vec.dot]) (by norm_num) (by norm_num) (by norm_num)
  ⟨h.1, h.2.1⟩

/-- C10: for radii `rA, rB >= 0` and `norm` the Euclidean length on the
difference of the centres, `checkCollisionBetween` is true exactly when the
centre distance is at most `rA + rB`, exactly when `distance` is `<= 0`; so the
`correctionLength` computed by `resolveCollisionBetween`, which
`checkAndResolveBetween` reaches only when the check is true, is non-negative. -/
theorem checkCollisionBetween_iff (ops : VecOps K) (one two : Body K)
    (hr1 : 0 ≤ one.radius) (hr2 : 0 ≤ two.radius)
    (hn : IsLength (one.position.sub two.position) (ops.norm (one.position.sub two.position)))
    (hn' : IsLength (two.position.sub one.position)
      (ops.norm (two.position.sub one.position))) :
    (checkCollisionBetween one two = true
        ↔ ops.norm (one.position.sub two.position) ≤ one.radius + two.radius)
      ∧ (checkCollisionBetween one two = true ↔ distance ops one two ≤ 0)
      ∧ (checkCollisionBetween one two = true → 0 ≤ correctionLength ops one two)
      ∧ (checkCollisionBetween one two = false →
          checkAndResolveBetween ops one two = (one, two)) := by
  have hiff : checkCollisionBetween one two = true
      ↔ ops.norm (one.position.sub two.position) ≤ one.radius + two.radius := by
    simp only [checkCollisionBetween, decide_eq_true_eq]
    exact (hn.le_iff (add_nonneg hr1 hr2)).symm
  have hflip : ops.norm (two.position.sub one.position)
      = ops.norm (one.position.sub two.position) := by
    refine IsLength.unique hn' ⟨hn.1, ?_⟩
    rw [hn.2]
    simp only [Vec.dot, Vec.sub]
    ring
  refine ⟨hiff, ?_, ?_, ?_⟩
  · rw [hiff]
    simp only [distance]
    constructor <;> intro h <;> linarith
  · intro hc
    have := hiff.1 hc
    simp only [correctionLength, distance, hflip]
    linarith
  · intro hc
    simp [checkAndResolveBetween, hc]

/-- C10, witness: centres (0,0) and (3,4) at distance 5, radii 6 and 6. -/
theorem checkCollisionBetween_iff_witness :
    checkCollisionBetween (⟨⟨0, 0⟩, ⟨1, 2⟩, 1, 6⟩ : Body ℚ) ⟨⟨3, 4⟩, ⟨-3, 1⟩, 2, 6⟩ = true
      ∧ distance ratOps (⟨⟨0, 0⟩, ⟨1, 2⟩, 1, 6⟩ : Body ℚ) ⟨⟨3, 4⟩, ⟨-3, 1⟩, 2, 6⟩ ≤ 0
      ∧ 0 ≤ correctionLength ratOps (⟨⟨0, 0⟩, ⟨1, 2⟩, 1, 6⟩ : Body ℚ)
          ⟨⟨3, 4⟩, ⟨-3, 1⟩, 2, 6⟩ := by
  have h := checkCollisionBetween_iff ratOps (⟨⟨0, 0⟩, ⟨1, 2⟩, 1, 6⟩ : Body ℚ)
    ⟨⟨3, 4⟩, ⟨-3, 1⟩, 2, 6⟩ (by norm_num) (by norm_num)
    (by norm_num [IsLength, ratOps, Vec.sub, Vec.dot, Rat.sqrt])
    (by norm_num [IsLength, ratOps, Vec.sub, Vec.dot, Rat.sqrt])
  have hc : checkCollisionBetween (⟨⟨0, 0⟩, ⟨1, 2⟩, 1, 6⟩ : Body ℚ)
      ⟨⟨3, 4⟩, ⟨-3, 1⟩, 2, 6⟩ = true := by
    norm_num [checkCollisionBetween, Vec.sub, Vec.dot]
  exact ⟨hc, h.2.1.1 hc, h.2.2.1 hc⟩

/-! ## C5 and C6: resolution of two overlapping circles -/

/-- The unit vector returned on a vector of non-zero length has scalar square 1. -/
theorem Euclidean.dot_getUnit {ops : VecOps K} {v : Vec K} (hE : Euclidean ops v)
    (h0 : ops.norm v ≠ 0) : (ops.getUnit v).dot (ops.getUnit v) = 1 := by
  obtain ⟨⟨_, hdd⟩, hu⟩ := hE
  rw [hu h0]
  simp only [Vec.dot] at hdd ⊢
  field_simp
  linarith

/-- C5: for two circles with distinct centres at distance `d`, `0 < d <= rA + rB`
(`norm` and `getUnit` Euclidean on the difference of the centres), after
`resolveCollisionBetween` the distance between the centres is
`rA + rB + 0.002 * (rA + rB - d)`: it is at least `rA + rB` (no residual
penetration) and at most `1.002 * (rA + rB)`. -/
theorem resolveCollisionBetween_separation (ops : VecOps K) (one two : Body K)
    (hE : Euclidean ops (two.position.sub one.position))
    (hd0 : 0 < ops.norm (two.position.sub one.position))
    (hd : ops.norm (two.position.sub one.position) ≤ one.radius + two.radius) :
    IsLength
        ((resolveCollisionBetween ops one two).2.position.sub
          (resolveCollisionBetween ops one two).1.position)
        (one.radius + two.radius
          + 2 / 1000 * (one.radius + two.radius - ops.norm (two.position.sub one.position)))
      ∧ one.radius + two.radius
          ≤ one.radius + two.radius
            + 2 / 1000 * (one.radius + two.radius - ops.norm (two.position.sub one.position))
      ∧ one.radius + two.radius
            + 2 / 1000 * (one.radius + two.radius - ops.norm (two.position.sub one.position))
          ≤ 1002 / 1000 * (one.radius + two.radius)
      ∧ ∀ D, IsLength
          ((resolveCollisionBetween ops one two).2.position.sub
            (resolveCollisionBetween ops one two).1.position) D →
          D = one.radius + two.radius
            + 2 / 1000 * (one.radius + two.radius - ops.norm (two.position.sub one.position)) := by
  have hne : ops.norm (two.position.sub one.position) ≠ 0 := ne_of_gt hd0
  obtain ⟨⟨_, hdd⟩, hu⟩ := hE
  have hu' := hu hne
  have hlen : IsLength
        ((resolveCollisionBetween ops one two).2.position.sub
          (resolveCollisionBetween ops one two).1.position)
        (one.radius + two.radius
          + 2 / 1000 * (one.radius + two.radius - ops.norm (two.position.sub one.position))) := by
    refine ⟨by linarith, ?_⟩
    simp only [resolveCollisionBetween, resolveCollisionBetweenWith, correctionLength, distance,
      hu']
    generalize ops.norm (two.position.sub one.position) = d at hdd hd0 hne hd
    simp only [Vec.sub, Vec.add, Vec.smul, Vec.dot] at hdd ⊢
    have hx : two.position.x + (two.position.x - one.position.x) / d
          * ((d - two.radius - one.radius) * -1 * (501 / 1000))
        - (one.position.x - (two.position.x - one.position.x) / d
          * ((d - two.radius - one.radius) * -1 * (501 / 1000)))
        = (two.position.x - one.position.x)
          * ((one.radius + two.radius + 2 / 1000 * (one.radius + two.radius - d)) / d) := by
      field_simp
      ring
    have hy : two.position.y + (two.position.y - one.position.y) / d
          * ((d - two.radius - one.radius) * -1 * (501 / 1000))
        - (one.position.y - (two.position.y - one.position.y) / d
          * ((d - two.radius - one.radius) * -1 * (501 / 1000)))
        = (two.position.y - one.position.y)
          * ((one.radius + two.radius + 2 / 1000 * (one.radius + two.radius - d)) / d) := by
      field_simp
      ring
    rw [hx, hy]
    have key : ∀ a b t : K, a * (t / d) * (a * (t / d)) + b * (t / d) * (b * (t / d))
        = (a * a + b * b) * (t * t) / (d * d) := by
      intro a b t
      field_simp
      ring
    rw [key, ← hdd]
    field_simp
    ring
  refine ⟨hlen, by linarith, by linarith, fun D hD => IsLength.unique hD hlen⟩

/-- C6: with restitution coefficient 1 and equal masses `m > 0`,
`resolveCollisionBetween` on two circles with distinct centres exchanges the
velocity components along the unit contact normal `n`: the new velocity of the
first body has the old normal component of the second and vice versa. -/
theorem resolveCollisionBetweenWith_elastic (ops : VecOps K) (one two : Body K)
    (hE : Euclidean ops (two.position.sub one.position))
    (hd0 : 0 < ops.norm (two.position.sub one.position))
    (hm : one.mass = two.mass) (hm0 : 0 < one.mass) :
    (resolveCollisionBetweenWith ops 1 one two).1.velocity.dot
          (ops.getUnit (two.position.sub one.position))
        = two.velocity.dot (ops.getUnit (two.position.sub one.position))
      ∧ (resolveCollisionBetweenWith ops 1 one two).2.velocity.dot
          (ops.getUnit (two.position.sub one.position))
        = one.velocity.dot (ops.getUnit (two.position.sub one.position))
      ∧ (ops.getUnit (two.position.sub one.position)).dot
          (ops.getUnit (two.position.sub one.position)) = 1 := by
  have hn := hE.dot_getUnit (ne_of_gt hd0)
  have hmm : two.mass + two.mass ≠ 0 := by
    rw [← hm]
    exact ne_of_gt (add_pos hm0 hm0)
  simp only [resolveCollisionBetweenWith, hm]
  generalize ops.getUnit (two.position.sub one.position) = n at hn ⊢
  simp only [Vec.sub, Vec.add, Vec.smul, Vec.dot] at hn ⊢
  have h1 : ∀ a b : K, (a * (two.mass - 1 * two.mass) + b * (1 + 1) * two.mass)
      / (two.mass + two.mass) = b := by
    intro a b
    field_simp
    ring
  have h2 : ∀ a b : K, (b * (two.mass - 1 * two.mass) + a * (1 + 1) * two.mass)
      / (two.mass + two.mass) = a := by
    intro a b
    field_simp
    ring
  rw [h1, h2]
  refine ⟨?_, ?_, hn⟩
  · linear_combination (two.velocity.x * n.x + two.velocity.y * n.y
      - one.velocity.x * n.x - one.velocity.y * n.y) * hn
  · linear_combination (one.velocity.x * n.x + one.velocity.y * n.y
      - two.velocity.x * n.x - two.velocity.y * n.y) * hn

/-- On the vector (3,4) the operations `ratOps` are Euclidean, with length 5. -/
theorem ratOps_euclidean_3_4 :
    Euclidean ratOps ((⟨3, 4⟩ : Vec ℚ).sub ⟨0, 0⟩) ∧ ratOps.norm ((⟨3, 4⟩ : Vec ℚ).sub ⟨0, 0⟩) = 5 := by
  have h : ratOps.norm ((⟨3, 4⟩ : Vec ℚ).sub ⟨0, 0⟩) = 5 := by
    norm_num [ratOps, Vec.sub, Vec.dot, Rat.sqrt]
  refine ⟨⟨⟨?_, ?_⟩, fun _ => rfl⟩, h⟩
  · rw [h]
    norm_num
  · rw [h]
    norm_num [Vec.sub, Vec.dot]

/-- C5, witness: centres (0,0) and (3,4) at distance 5, radii 6 and 6. -/
theorem resolveCollisionBetween_separation_witness :
    (0 : ℚ) < ratOps.norm ((⟨3, 4⟩ : Vec ℚ).sub ⟨0, 0⟩)
      ∧ ratOps.norm ((⟨3, 4⟩ : Vec ℚ).sub ⟨0, 0⟩) ≤ 6 + 6
      ∧ IsLength
        ((resolveCollisionBetween ratOps (⟨⟨0, 0⟩, ⟨1, 2⟩, 1, 6⟩ : Body ℚ)
            ⟨⟨3, 4⟩, ⟨-3, 1⟩, 2, 6⟩).2.position.sub
          (resolveCollisionBetween ratOps (⟨⟨0, 0⟩, ⟨1, 2⟩, 1, 6⟩ : Body ℚ)
            ⟨⟨3, 4⟩, ⟨-3, 1⟩, 2, 6⟩).1.position)
        (6 + 6 + 2 / 1000 * (6 + 6 - ratOps.norm ((⟨3, 4⟩ : Vec ℚ).sub ⟨0, 0⟩))) := by
  have h0 : (0 : ℚ) < ratOps.norm ((⟨3, 4⟩ : Vec ℚ).sub ⟨0, 0⟩) := by
    rw [ratOps_euclidean_3_4.2]
    norm_num
  have h1 : ratOps.norm ((⟨3, 4⟩ : Vec ℚ).sub ⟨0, 0⟩) ≤ 6 + 6 := by
    rw [ratOps_euclidean_3_4.2]
    norm_num
  exact ⟨h0, h1, (resolveCollisionBetween_separation ratOps (⟨⟨0, 0⟩, ⟨1, 2⟩, 1, 6⟩ : Body ℚ)
    ⟨⟨3, 4⟩, ⟨-3, 1⟩, 2, 6⟩ ratOps_euclidean_3_4.1 h0 h1).1⟩

/-- C6, witness: centres (0,0) and (3,4), both masses 2. -/
theorem resolveCollisionBetweenWith_elastic_witness :
    (resolveCollisionBetweenWith ratOps 1 (⟨⟨0, 0⟩, ⟨1, 2⟩, 2, 6⟩ : Body ℚ)
          ⟨⟨3, 4⟩, ⟨-3, 1⟩, 2, 6⟩).1.velocity.dot (ratOps.getUnit ((⟨3, 4⟩ : Vec ℚ).sub ⟨0, 0⟩))
        = (⟨-3, 1⟩ : Vec ℚ).dot (ratOps.getUnit ((⟨3, 4⟩ : Vec ℚ).sub ⟨0, 0⟩))
      ∧ (resolveCollisionBetweenWith ratOps 1 (⟨⟨0, 0⟩, ⟨1, 2⟩, 2, 6⟩ : Body ℚ)
          ⟨⟨3, 4⟩, ⟨-3, 1⟩, 2, 6⟩).2.velocity.dot (ratOps.getUnit ((⟨3, 4⟩ : Vec ℚ).sub ⟨0, 0⟩))
        = (⟨1, 2⟩ : Vec ℚ).dot (ratOps.getUnit ((⟨3, 4⟩ : Vec ℚ).sub ⟨0, 0⟩)) :=
  have h := resolveCollisionBetweenWith_elastic ratOps (⟨⟨0, 0⟩, ⟨1, 2⟩, 2, 6⟩ : Body ℚ)
    ⟨⟨3, 4⟩, ⟨-3, 1⟩, 2, 6⟩ ratOps_euclidean_3_4.1
    (by rw [ratOps_euclidean_3_4.2]; norm_num) rfl (by norm_num)
  ⟨h.1, h.2.1⟩

/-! ## C7: floor friction -/

/-- The friction impulse `9.81 * 1 * (1 / 360) * 6` is `0.1635`. -/
theorem frictionImpulse_eq : (frictionImpulse : K) = 1635 / 10000 := by
  simp only [frictionImpulse, Config.frictionCoefficient, Config.fixedTimeStep, Config.targetFPS,
    Config.renderFrequencyMultiplier, Config.timeScale]
  norm_num

/-- Closed form of the horizontal velocity after the friction step, for a body
on the floor with non-zero horizontal velocity. -/
theorem applyContinuousFrictionIfOnBottom_velocity_x (b : Body K)
    (hy : |b.position.y + b.radius - Config.windowHeight| < 5 / 10) (hv : b.velocity.x ≠ 0) :
    (applyContinuousFrictionIfOnBottom b).velocity.x
      = if b.velocity.x > 0 then max (b.velocity.x - frictionImpulse) 0
        else min (b.velocity.x + frictionImpulse) 0 := by
  have habs : |b.velocity.x| > 0 := abs_pos.2 hv
  simp only [applyContinuousFrictionIfOnBottom, if_pos hy, if_pos habs]
  by_cases hpos : b.velocity.x > 0
  · simp only [if_pos hpos]
    split_ifs with h
    · have : b.velocity.x - frictionImpulse ≤ 0 := by linarith
      simp [max_eq_right this]
    · have : 0 ≤ b.velocity.x - frictionImpulse := by linarith
      simp only [max_eq_left this]
      ring
  · simp only [if_neg hpos]
    split_ifs with h
    · have : 0 ≤ b.velocity.x + frictionImpulse := by linarith
      simp [min_eq_right this]
    · have : b.velocity.x + frictionImpulse ≤ 0 := by linarith
      simp only [min_eq_left this]
      ring

/-- C7: for a body whose bottom surface `y + r` is within 0.5 of the floor
(`windowHeight`) and whose horizontal velocity `vx` is non-zero,
`applyContinuousFrictionIfOnBottom` sets `vx` to `sign(vx) * max(|vx| - I, 0)`
with `I = 9.81 * frictionCoefficient * fixedTimeStep * timeScale = 0.1635`; so
`|vx|` strictly decreases, `vx` never changes sign, and it becomes exactly 0
when the impulse would overshoot (`vx = 5` becomes `4.8365`, `vx = 0.1`
becomes `0`). -/
theorem applyContinuousFrictionIfOnBottom_floor (b : Body K)
    (hy : |b.position.y + b.radius - Config.windowHeight| < 5 / 10) (hv : b.velocity.x ≠ 0) :
    (frictionImpulse : K)
        = 981 / 100 * Config.frictionCoefficient * Config.fixedTimeStep * Config.timeScale
      ∧ (frictionImpulse : K) = 1635 / 10000
      ∧ (applyContinuousFrictionIfOnBottom b).velocity.x
        = (SignType.sign b.velocity.x : K) * max (|b.velocity.x| - frictionImpulse) 0
      ∧ |(applyContinuousFrictionIfOnBottom b).velocity.x| < |b.velocity.x|
      ∧ 0 ≤ (applyContinuousFrictionIfOnBottom b).velocity.x * b.velocity.x
      ∧ (|b.velocity.x| ≤ frictionImpulse → (applyContinuousFrictionIfOnBottom b).velocity.x = 0)
      ∧ (frictionImpulse < |b.velocity.x| →
          |(applyContinuousFrictionIfOnBottom b).velocity.x| = |b.velocity.x| - frictionImpulse)
      ∧ (b.velocity.x = 5 → (applyContinuousFrictionIfOnBottom b).velocity.x = 48365 / 10000)
      ∧ (b.velocity.x = 1 / 10 → (applyContinuousFrictionIfOnBottom b).velocity.x = 0) := by
  have hI : (frictionImpulse : K) = 1635 / 10000 := frictionImpulse_eq
  have hI0 : (0 : K) < frictionImpulse := by
    rw [hI]
    norm_num
  have hform := applyContinuousFrictionIfOnBottom_velocity_x b hy hv
  refine ⟨rfl, hI, ?_, ?_, ?_, ?_, ?_, ?_, ?_⟩
  · rw [hform]
    rcases lt_or_gt_of_ne hv with hneg | hpos
    · have hn : ¬ b.velocity.x > 0 := not_lt.2 (le_of_lt hneg)
      rw [if_neg hn, sign_neg hneg, abs_of_neg hneg]
      simp only [SignType.coe_neg, SignType.coe_one, neg_mul, one_mul]
      rcases le_total (b.velocity.x + frictionImpulse) 0 with h | h
      · rw [min_eq_left h, max_eq_left (by linarith)]
        ring
      · rw [min_eq_right h, max_eq_right (by linarith)]
        ring
    · rw [if_pos hpos, sign_pos hpos, abs_of_pos hpos]
      simp only [SignType.coe_one, one_mul]
  · rw [hform]
    rcases lt_or_gt_of_ne hv with hneg | hpos
    · have hn : ¬ b.velocity.x > 0 := not_lt.2 (le_of_lt hneg)
      rw [if_neg hn, abs_of_neg hneg]
      rcases le_total (b.velocity.x + frictionImpulse) 0 with h | h
      · rw [min_eq_left h, abs_of_nonpos h]
        linarith
      · rw [min_eq_right h, abs_zero]
        linarith
    · rw [if_pos hpos, abs_of_pos hpos]
      rcases le_total (b.velocity.x - frictionImpulse) 0 with h | h
      · rw [max_eq_right h, abs_zero]
        exact hpos
      · rw [max_eq_left h, abs_of_nonneg h]
        linarith
  · rw [hform]
    rcases lt_or_gt_of_ne hv with hneg | hpos
    · have hn : ¬ b.velocity.x > 0 := not_lt.2 (le_of_lt hneg)
      rw [if_neg hn]
      exact mul_nonneg_of_nonpos_of_nonpos (min_le_right _ _) (le_of_lt hneg)
    · rw [if_pos hpos]
      exact mul_nonneg (le_max_right _ _) (le_of_lt hpos)
  · intro hle
    rw [hform]
    rcases lt_or_gt_of_ne hv with hneg | hpos
    · have hn : ¬ b.velocity.x > 0 := not_lt.2 (le_of_lt hneg)
      rw [abs_of_neg hneg] at hle
      rw [if_neg hn, min_eq_right (by linarith)]
    · rw [abs_of_pos hpos] at hle
      rw [if_pos hpos, max_eq_right (by linarith)]
  · intro hlt
    rw [hform]
    rcases lt_or_gt_of_ne hv with hneg | hpos
    · have hn : ¬ b.velocity.x > 0 := not_lt.2 (le_of_lt hneg)
      rw [abs_of_neg hneg] at hlt ⊢
      have h : b.velocity.x + frictionImpulse ≤ 0 := by linarith
      rw [if_neg hn, min_eq_left h, abs_of_nonpos h]
      ring
    · rw [abs_of_pos hpos] at hlt ⊢
      have h : 0 ≤ b.velocity.x - frictionImpulse := by linarith
      rw [if_pos hpos, max_eq_left h, abs_of_nonneg h]
  · intro h5
    rw [hform, h5, hI]
    norm_num
  · intro h1
    rw [hform, h1, hI]
    norm_num

/-- C7, witness: a body of radius 6 resting on the floor with `vx = 5`. -/
theorem applyContinuousFrictionIfOnBottom_floor_witness :
    |(594 : ℚ) + 6 - Config.windowHeight| < 5 / 10 ∧ (5 : ℚ) ≠ 0
      ∧ (applyContinuousFrictionIfOnBottom (⟨⟨100, 594⟩, ⟨5, 0⟩, 1, 6⟩ : Body ℚ)).velocity.x
        = 48365 / 10000 :=
  have hy : |(594 : ℚ) + 6 - Config.windowHeight| < 5 / 10 := by
    norm_num [Config.windowHeight]
  ⟨hy, by norm_num,
    (applyContinuousFrictionIfOnBottom_floor (⟨⟨100, 594⟩, ⟨5, 0⟩, 1, 6⟩ : Body ℚ) hy
      (by norm_num)).2.2.2.2.2.2.2.1 rfl⟩

/-! ## C9: each pair is checked at most once -/

/-- The inner loop of `update` for the entity `a` keeps the quadtree and records
one call `(a, b)` for every non-null candidate `b` with `a < b`, in order. -/
theorem foldl_nearbyStep_calls {Q : Type} (ops : VecOps K) (a : Ptr) (l : List (Option Ptr))
    (s : Sim K Q) :
    (l.foldl (nearbyStep ops a) s).qt = s.qt
      ∧ (l.foldl (nearbyStep ops a) s).calls
        = s.calls ++ (l.reduceOption.filter (fun b => decide (a < b))).map (Prod.mk a) := by
  induction l generalizing s with
  | nil => simp
  | cons o l ih =>
    rw [List.foldl_cons]
    cases o with
    | none =>
      rw [List.reduceOption_cons_of_none]
      exact ih s
    | some b =>
      rw [List.reduceOption_cons_of_some]
      obtain ⟨ih1, ih2⟩ := ih (nearbyStep ops a s (some b))
      rw [ih1, ih2]
      by_cases hlt : a < b
      · have hne : ¬ b = a := by
          rintro rfl
          exact lt_irrefl _ hlt
        have hge : ¬ a ≥ b := not_le.2 hlt
        simp [nearbyStep, hne, hge, hlt, callCheckAndResolveBetween]
      · by_cases hba : b = a
        · simp [nearbyStep, hba]
        · have hge : a ≥ b := not_lt.1 hlt
          simp [nearbyStep, hba, hge, hlt]

/-- One round of the outer loop keeps the quadtree and appends the calls of
its inner loop. -/
theorem entityStep_calls {Q : Type} (ops : VecOps K) (qops : QuadtreeOps K Q) (s : Sim K Q)
    (a : Ptr) :
    (entityStep ops qops s (some a)).qt = s.qt
      ∧ ∃ h range, (entityStep ops qops s (some a)).calls
          = s.calls ++ (((qops.query s.qt h range).reduceOption).filter
              (fun b => decide (a < b))).map (Prod.mk a) := by
  obtain ⟨h1, h2⟩ := foldl_nearbyStep_calls ops a
    (qops.query s.qt s.heap
      ⟨⟨(s.heap a).position.x - ((s.heap a).radius + Config.radius),
          (s.heap a).position.y - ((s.heap a).radius + Config.radius)⟩,
        ⟨(s.heap a).position.x + ((s.heap a).radius + Config.radius),
          (s.heap a).position.y + ((s.heap a).radius + Config.radius)⟩⟩) s
  constructor
  · simp only [entityStep]
    split_ifs <;> exact h1
  · refine ⟨s.heap, ?_, ?_⟩
    swap
    · simp only [entityStep]
      split_ifs <;> exact h2

/-- Invariant of the outer loop of `update`: started in a state whose recorded
calls are ordered, without repetition and made by entities that are not in the
rest of the list, the loop ends in a state whose calls are ordered and without
repetition. -/
theorem foldl_entityStep_calls {Q : Type} (ops : VecOps K) (qops : QuadtreeOps K Q)
    (entities : List (Option Ptr)) (s : Sim K Q)
    (hq : ∀ h range, ((qops.query s.qt h range).reduceOption).Nodup)
    (hnd : entities.reduceOption.Nodup)
    (hs1 : ∀ p ∈ s.calls, p.1 < p.2 ∧ p.1 ∉ entities.reduceOption)
    (hs2 : s.calls.Nodup) :
    (∀ p ∈ (entities.foldl (entityStep ops qops) s).calls, p.1 < p.2)
      ∧ (entities.foldl (entityStep ops qops) s).calls.Nodup := by
  induction entities generalizing s with
  | nil => exact ⟨fun p hp => (hs1 p hp).1, hs2⟩
  | cons e es ih =>
    rw [List.foldl_cons]
    cases e with
    | none =>
      rw [List.reduceOption_cons_of_none] at hnd hs1
      exact ih s hq hnd hs1 hs2
    | some a =>
      rw [List.reduceOption_cons_of_some] at hnd hs1
      obtain ⟨hqt, h, range, hcalls⟩ := entityStep_calls ops qops s a
      generalize hl : (qops.query s.qt h range).reduceOption = l at hcalls
      have hlnd : l.Nodup := by
        rw [← hl]
        exact hq h range
      have hnew : ((l.filter (fun b => decide (a < b))).map (Prod.mk a)).Nodup :=
        (hlnd.filter _).map (fun x y hxy => (Prod.mk.inj hxy).2)
      have hmem : ∀ p ∈ (l.filter (fun b => decide (a < b))).map (Prod.mk a),
          p.1 = a ∧ a < p.2 := by
        intro p hp
        obtain ⟨b, hb, rfl⟩ := List.mem_map.1 hp
        exact ⟨rfl, of_decide_eq_true (List.mem_filter.1 hb).2⟩
      apply ih
      · intro h' range'
        rw [hqt]
        exact hq h' range'
      · exact (List.nodup_cons.1 hnd).2
      · intro p hp
        rw [hcalls] at hp
        rcases List.mem_append.1 hp with hp | hp
        · obtain ⟨h1, h2⟩ := hs1 p hp
          exact ⟨h1, fun hin => h2 (List.mem_cons_of_mem a hin)⟩
        · obtain ⟨h1, h2⟩ := hmem p hp
          refine ⟨by rw [h1]; exact h2, ?_⟩
          rw [h1]
          exact (List.nodup_cons.1 hnd).1
      · rw [hcalls]
        refine List.Nodup.append hs2 hnew ?_
        intro p hp1 hp2
        exact (hs1 p hp1).2 (by rw [(hmem p hp2).1]; exact List.mem_cons_self a _)

/-- C9: in one call of `update` over a body list whose non-null pointers are
distinct, with a spatial query that returns no non-null pointer twice, every
recorded call `checkAndResolveBetween(A, B)` has `A < B` in the address order
(it is made from the iteration of the smaller entity, never for an entity with
itself), no call is recorded twice, and for every unordered pair `{a, b}` at
most one call is made; this holds for every order of the list. -/
theorem update_calls_once {Q : Type} (ops : VecOps K) (qops : QuadtreeOps K Q) (heap : Heap K)
    (q : Q) (entities : List (Option Ptr))
    (hnd : entities.reduceOption.Nodup)
    (hq : ∀ h range,
      ((qops.query (rebuild qops heap q entities) h range).reduceOption).Nodup) :
    (∀ p ∈ (update ops qops heap q entities).calls, p.1 < p.2)
      ∧ (update ops qops heap q entities).calls.Nodup
      ∧ (∀ a, (a, a) ∉ (update ops qops heap q entities).calls)
      ∧ ∀ a b, ((update ops qops heap q entities).calls.filter
          (fun p => decide (p = (a, b) ∨ p = (b, a)))).length ≤ 1 := by
  have h12 : (∀ p ∈ (update ops qops heap q entities).calls, p.1 < p.2)
      ∧ (update ops qops heap q entities).calls.Nodup :=
    foldl_entityStep_calls ops qops entities
      (⟨heap, rebuild qops heap q entities, []⟩ : Sim K Q) hq hnd
      (fun p hp => absurd hp (List.not_mem_nil p)) List.nodup_nil
  obtain ⟨h1, h2⟩ := h12
  refine ⟨h1, h2, ?_, ?_⟩
  · intro a ha
    exact lt_irrefl a (h1 (a, a) ha)
  · intro a b
    generalize hl : (update ops qops heap q entities).calls.filter
      (fun p => decide (p = (a, b) ∨ p = (b, a))) = l
    have hlnd : l.Nodup := by
      rw [← hl]
      exact h2.filter _
    have hlmem : ∀ p ∈ l, p.1 < p.2 ∧ (p = (a, b) ∨ p = (b, a)) := by
      intro p hp
      rw [← hl] at hp
      obtain ⟨hp1, hp2⟩ := List.mem_filter.1 hp
      exact ⟨h1 p hp1, of_decide_eq_true hp2⟩
    match l, hlnd, hlmem with
    | [], _, _ => simp
    | [_], _, _ => simp
    | p :: p' :: t, hnd', hmem' =>
      exfalso
      have hne : p ≠ p' := fun h =>
        (List.nodup_cons.1 hnd').1 (h ▸ List.mem_cons_self p' t)
      obtain ⟨hp, hpc⟩ := hmem' p (List.mem_cons_self p _)
      obtain ⟨hp', hpc'⟩ := hmem' p' (List.mem_cons_of_mem p (List.mem_cons_self p' t))
      rcases hpc with rfl | rfl <;> rcases hpc' with rfl | rfl
      · exact hne rfl
      · exact lt_asymm hp hp'
      · exact lt_asymm hp hp'
      · exact hne rfl

/-- C9, witness: three entities in the order 2, 0, null, 1 and the brute-force
index. -/
theorem update_calls_once_witness :
    ([some 2, some 0, none, some 1] : List (Option Ptr)).reduceOption.Nodup
      ∧ (update ratOps listIndex
          (fun a => (⟨⟨100 + 3 * (a : ℚ), 100⟩, ⟨1, 0⟩, 1, 6⟩ : Body ℚ)) []
          [some 2, some 0, none, some 1]).calls.Nodup := by
  have hnd : ([some 2, some 0, none, some 1] : List (Option Ptr)).reduceOption.Nodup := by
    decide
  refine ⟨hnd, (update_calls_once ratOps listIndex
    (fun a => (⟨⟨100 + 3 * (a : ℚ), 100⟩, ⟨1, 0⟩, 1, 6⟩ : Body ℚ)) []
    [some 2, some 0, none, some 1] hnd ?_).2.1⟩
  intro h range
  have hq : rebuild listIndex (fun a => (⟨⟨100 + 3 * (a : ℚ), 100⟩, ⟨1, 0⟩, 1, 6⟩ : Body ℚ)) []
      [some 2, some 0, none, some 1] = [2, 0, 1] := rfl
  rw [hq]
  simp only [listIndex, List.reduceOption, List.filterMap_map, Function.comp_def, id,
    List.filterMap_some]
  exact List.Nodup.filter _ (by decide)

/-! ## C11: the broad-phase query box -/

/-- A component of a vector is at most its Euclidean length in absolute value. -/
theorem IsLength.component_le {v : Vec K} {d : K} (hd : IsLength v d) :
    |v.x| ≤ d ∧ |v.y| ≤ d := by
  obtain ⟨hd0, hdd⟩ := hd
  simp only [Vec.dot] at hdd
  have hx : v.x ^ 2 ≤ d ^ 2 := by nlinarith [mul_self_nonneg v.y]
  have hy : v.y ^ 2 ≤ d ^ 2 := by nlinarith [mul_self_nonneg v.x]
  exact ⟨abs_le.2 (abs_le_of_sq_le_sq' hx hd0), abs_le.2 (abs_le_of_sq_le_sq' hy hd0)⟩

/-- C11: if `B` has radius at most `Config::radius` and overlaps `A` (centre
distance `d <= rA + rB`), then the centre of `B` lies in the query box that
`update` builds for `A`: `|xB - xA| <= rA + Config::radius` and
`|yB - yA| <= rA + Config::radius`. -/
theorem queryRange_contains (A B : Body K) (d : K)
    (hd : IsLength (B.position.sub A.position) d)
    (hov : d ≤ A.radius + B.radius) (hB : B.radius ≤ Config.radius) :
    |B.position.x - A.position.x| ≤ A.radius + Config.radius
      ∧ |B.position.y - A.position.y| ≤ A.radius + Config.radius
      ∧ (queryRange A).contains B.position = true := by
  obtain ⟨hx, hy⟩ := hd.component_le
  simp only [Vec.sub] at hx hy
  have hx' : |B.position.x - A.position.x| ≤ A.radius + Config.radius := by linarith
  have hy' : |B.position.y - A.position.y| ≤ A.radius + Config.radius := by linarith
  refine ⟨hx', hy', ?_⟩
  obtain ⟨hx1, hx2⟩ := abs_le.1 hx'
  obtain ⟨hy1, hy2⟩ := abs_le.1 hy'
  simp only [AABB.contains, queryRange, Bool.and_eq_true, decide_eq_true_eq]
  refine ⟨⟨⟨?_, ?_⟩, ?_⟩, ?_⟩ <;> linarith

/-- C11, witness: `A` at (100,100) with radius 6, `B` at (103,104) with radius 6,
centre distance 5. -/
theorem queryRange_contains_witness :
    (5 : ℚ) ≤ 6 + 6 ∧ (6 : ℚ) ≤ Config.radius
      ∧ (queryRange (⟨⟨100, 100⟩, ⟨1, 0⟩, 1, 6⟩ : Body ℚ)).contains ⟨103, 104⟩ = true :=
  have hB : (6 : ℚ) ≤ Config.radius := by norm_num [Config.radius]
  ⟨by norm_num, hB,
    (queryRange_contains (⟨⟨100, 100⟩, ⟨1, 0⟩, 1, 6⟩ : Body ℚ) ⟨⟨103, 104⟩, ⟨-1, 0⟩, 2, 6⟩ 5
      (by norm_num [IsLength, Vec.sub, Vec.dot]) (by norm_num) hB).2.2⟩

/-! ## C14: a corner overlap -/

/-- C14: a body with `r < 300` (in particular `0 < r < 300`) that overlaps both
the right and the bottom edge (`x + r >= 600` and `y + r >= 600`) is corrected on
both axes by a single `resolveCollisionBorder`: `x = 600 - r`, `y = 600 - r`,
`vx' = -restitution * vx` and `vy' = -restitution * vy`. -/
theorem resolveCollisionBorder_corner (b : Body K) (hr : b.radius < 300)
    (hx : b.position.x + b.radius ≥ 600) (hy : b.position.y + b.radius ≥ 600) :
    (resolveCollisionBorder b).position = ⟨600 - b.radius, 600 - b.radius⟩
      ∧ (resolveCollisionBorder b).velocity
        = ⟨-Config.restitution * b.velocity.x, -Config.restitution * b.velocity.y⟩ := by
  have hB : ¬ (600 - b.radius - b.radius ≤ 0) := by
    intro h
    linarith
  constructor
  · apply Vec.ext_xy
    · rw [resolveCollisionBorder_position_x, if_pos hx, if_neg hB]
    · rw [resolveCollisionBorder_position_y, if_pos hy, if_neg hB]
  · apply Vec.ext_xy
    · rw [resolveCollisionBorder_velocity_x, if_pos hx, if_neg hB]
      ring
    · rw [resolveCollisionBorder_velocity_y, if_pos hy, if_neg hB]
      ring

/-- C14, witness: the body at (597, 598) with radius 6 and velocity (10, 5). -/
theorem resolveCollisionBorder_corner_witness :
    (resolveCollisionBorder (⟨⟨597, 598⟩, ⟨10, 5⟩, 1, 6⟩ : Body ℚ)).position = ⟨600 - 6, 600 - 6⟩
      ∧ (resolveCollisionBorder (⟨⟨597, 598⟩, ⟨10, 5⟩, 1, 6⟩ : Body ℚ)).velocity
        = ⟨-Config.restitution * 10, -Config.restitution * 5⟩ :=
  resolveCollisionBorder_corner (⟨⟨597, 598⟩, ⟨10, 5⟩, 1, 6⟩ : Body ℚ)
    (by norm_num) (by norm_num) (by norm_num)

/-! ## C17: the guard of the boundary step -/

/-- C17: `checkCollisionBorder` is false exactly when the body is strictly inside
the boundary (`r < x < 600 - r` and `r < y < 600 - r`); for such a body
`resolveCollisionBorder` changes nothing; so `resolveCollisionBorder` changes a
body only if `checkCollisionBorder` is true for it, and the guarded call in
`update` does the same as an unguarded one. -/
theorem checkCollisionBorder_guard (b : Body K) :
    (checkCollisionBorder b = false
        ↔ b.radius < b.position.x ∧ b.position.x < 600 - b.radius
          ∧ b.radius < b.position.y ∧ b.position.y < 600 - b.radius)
      ∧ (checkCollisionBorder b = false → resolveCollisionBorder b = b)
      ∧ (resolveCollisionBorder b ≠ b → checkCollisionBorder b = true)
      ∧ (if checkCollisionBorder b then resolveCollisionBorder b else b)
        = resolveCollisionBorder b := by
  have hiff : checkCollisionBorder b = false
      ↔ b.radius < b.position.x ∧ b.position.x < 600 - b.radius
        ∧ b.radius < b.position.y ∧ b.position.y < 600 - b.radius := by
    simp only [checkCollisionBorder, Config.windowWidth, Config.windowHeight, Bool.or_eq_false_iff,
      decide_eq_false_iff_not, not_le, ge_iff_le]
    constructor
    · rintro ⟨⟨⟨h1, h2⟩, h3⟩, h4⟩
      exact ⟨by linarith, by linarith, by linarith, by linarith⟩
    · rintro ⟨h1, h2, h3, h4⟩
      exact ⟨⟨⟨by linarith, by linarith⟩, by linarith⟩, by linarith⟩
  have hfix : checkCollisionBorder b = false → resolveCollisionBorder b = b := by
    intro hc
    obtain ⟨h1, h2, h3, h4⟩ := hiff.1 hc
    have hx1 : ¬ (b.position.x + b.radius ≥ 600) := by
      intro h
      linarith
    have hx2 : ¬ (b.position.x - b.radius ≤ 0) := by
      intro h
      linarith
    have hy1 : ¬ (b.position.y + b.radius ≥ 600) := by
      intro h
      linarith
    have hy2 : ¬ (b.position.y - b.radius ≤ 0) := by
      intro h
      linarith
    refine Body.ext_fields (Vec.ext_xy ?_ ?_) (Vec.ext_xy ?_ ?_) (by simp) (by simp)
    · rw [resolveCollisionBorder_position_x, if_neg hx1, if_neg hx2]
    · rw [resolveCollisionBorder_position_y, if_neg hy1, if_neg hy2]
    · rw [resolveCollisionBorder_velocity_x, if_neg hx1, if_neg hx2]
    · rw [resolveCollisionBorder_velocity_y, if_neg hy1, if_neg hy2]
  refine ⟨hiff, hfix, ?_, ?_⟩
  · intro hne
    cases hc : checkCollisionBorder b
    · exact absurd (hfix hc) hne
    · rfl
  · cases hc : checkCollisionBorder b
    · simp [hfix hc]
    · simp

/-- C17, witness: the body at (100, 200) with radius 6 is strictly inside, the
check is false and the resolution leaves it as it is. -/
theorem checkCollisionBorder_guard_witness :
    checkCollisionBorder (⟨⟨100, 200⟩, ⟨3, -4⟩, 1, 6⟩ : Body ℚ) = false
      ∧ resolveCollisionBorder (⟨⟨100, 200⟩, ⟨3, -4⟩, 1, 6⟩ : Body ℚ)
        = ⟨⟨100, 200⟩, ⟨3, -4⟩, 1, 6⟩ :=
  have h := checkCollisionBorder_guard (⟨⟨100, 200⟩, ⟨3, -4⟩, 1, 6⟩ : Body ℚ)
  have hc : checkCollisionBorder (⟨⟨100, 200⟩, ⟨3, -4⟩, 1, 6⟩ : Body ℚ) = false :=
    h.1.2 ⟨by norm_num, by norm_num, by norm_num, by norm_num⟩
  ⟨hc, h.2.1 hc⟩

/-! ## C18: what the friction step leaves alone -/

/-- C18: `applyContinuousFrictionIfOnBottom` never changes the position, the
vertical velocity, the mass or the radius, and it changes nothing at all when
the bottom surface is not within 0.5 of the floor (`|y + r - 600| >= 0.5`) or
when the horizontal velocity is exactly 0. -/
theorem applyContinuousFrictionIfOnBottom_frame (b : Body K) :
    (applyContinuousFrictionIfOnBottom b).position = b.position
      ∧ (applyContinuousFrictionIfOnBottom b).velocity.y = b.velocity.y
      ∧ (applyContinuousFrictionIfOnBottom b).mass = b.mass
      ∧ (applyContinuousFrictionIfOnBottom b).radius = b.radius
      ∧ (|b.position.y + b.radius - 600| ≥ 5 / 10 → applyContinuousFrictionIfOnBottom b = b)
      ∧ (b.velocity.x = 0 → applyContinuousFrictionIfOnBottom b = b) := by
  refine ⟨?_, ?_, ?_, ?_, ?_, ?_⟩
  · simp only [applyContinuousFrictionIfOnBottom]
    split_ifs <;> rfl
  · simp only [applyContinuousFrictionIfOnBottom]
    split_ifs <;> rfl
  · simp only [applyContinuousFrictionIfOnBottom]
    split_ifs <;> rfl
  · simp only [applyContinuousFrictionIfOnBottom]
    split_ifs <;> rfl
  · intro h
    have hn : ¬ (|b.position.y + b.radius - Config.windowHeight| < 5 / 10) := by
      simp only [Config.windowHeight]
      exact not_lt.2 h
    simp only [applyContinuousFrictionIfOnBottom, if_neg hn]
  · intro h
    have hn : ¬ (|b.velocity.x| > 0) := by
      rw [h, abs_zero]
      exact lt_irrefl 0
    simp only [applyContinuousFrictionIfOnBottom, if_neg hn]
    split_ifs <;> rfl

/-- C18, witness: a body in mid-air keeps everything, and a body at rest on the
floor keeps everything. -/
theorem applyContinuousFrictionIfOnBottom_frame_witness :
    applyContinuousFrictionIfOnBottom (⟨⟨100, 200⟩, ⟨3, -4⟩, 1, 6⟩ : Body ℚ)
        = ⟨⟨100, 200⟩, ⟨3, -4⟩, 1, 6⟩
      ∧ applyContinuousFrictionIfOnBottom (⟨⟨100, 594⟩, ⟨0, 2⟩, 1, 6⟩ : Body ℚ)
        = ⟨⟨100, 594⟩, ⟨0, 2⟩, 1, 6⟩ :=
  ⟨(applyContinuousFrictionIfOnBottom_frame (⟨⟨100, 200⟩, ⟨3, -4⟩, 1, 6⟩ : Body ℚ)).2.2.2.2.1
      (by norm_num [abs_of_neg]),
    (applyContinuousFrictionIfOnBottom_frame (⟨⟨100, 594⟩, ⟨0, 2⟩, 1, 6⟩ : Body ℚ)).2.2.2.2.2
      rfl⟩

/-! ## C12 and C13: the velocity response -/

/-- The velocities written by `resolveCollisionBetween`: the tangential part of
the old velocity plus the new normal speed along the normal. -/
theorem resolveCollisionBetweenWith_velocity (ops : VecOps K) (e : K) (one two : Body K) :
    (resolveCollisionBetweenWith ops e one two).1.velocity
        = (one.velocity.sub ((ops.getUnit (two.position.sub one.position)).smul
              (one.velocity.dot (ops.getUnit (two.position.sub one.position))))).add
            ((ops.getUnit (two.position.sub one.position)).smul
              ((one.velocity.dot (ops.getUnit (two.position.sub one.position))
                    * (one.mass - e * two.mass)
                  + two.velocity.dot (ops.getUnit (two.position.sub one.position))
                    * (1 + e) * two.mass)
                / (one.mass + two.mass)))
      ∧ (resolveCollisionBetweenWith ops e one two).2.velocity
        = (two.velocity.sub ((ops.getUnit (two.position.sub one.position)).smul
              (two.velocity.dot (ops.getUnit (two.position.sub one.position))))).add
            ((ops.getUnit (two.position.sub one.position)).smul
              ((two.velocity.dot (ops.getUnit (two.position.sub one.position))
                    * (two.mass - e * one.mass)
                  + one.velocity.dot (ops.getUnit (two.position.sub one.position))
                    * (1 + e) * one.mass)
                / (one.mass + two.mass)))
      ∧ (resolveCollisionBetweenWith ops e one two).1.mass = one.mass
      ∧ (resolveCollisionBetweenWith ops e one two).2.mass = two.mass :=
  ⟨rfl, rfl, rfl, rfl⟩

/-- Replacing the component of `v` along a unit vector `n` by `c` gives a vector
whose component along `n` is `c` and whose remaining part is that of `v`. -/
theorem Vec.dot_replace_normal (v n : Vec K) (c : K) (hn : n.dot n = 1) :
    ((v.sub (n.smul (v.dot n))).add (n.smul c)).dot n = c
      ∧ ((v.sub (n.smul (v.dot n))).add (n.smul c)).sub
          (n.smul (((v.sub (n.smul (v.dot n))).add (n.smul c)).dot n))
        = v.sub (n.smul (v.dot n))
      ∧ ((v.sub (n.smul (v.dot n))).add (n.smul c)).dot
          ((v.sub (n.smul (v.dot n))).add (n.smul c))
        = v.dot v + c * c - v.dot n * v.dot n := by
  simp only [Vec.dot, Vec.sub, Vec.add, Vec.smul] at hn ⊢
  have h1 : (v.x - n.x * (v.x * n.x + v.y * n.y) + n.x * c) * n.x
      + (v.y - n.y * (v.x * n.x + v.y * n.y) + n.y * c) * n.y = c := by
    linear_combination (c - (v.x * n.x + v.y * n.y)) * hn
  refine ⟨h1, ?_, ?_⟩
  · rw [h1]
    apply Vec.ext_xy
    · simp only
      ring
    · simp only
      ring
  · linear_combination (c - (v.x * n.x + v.y * n.y)) ^ 2 * hn

/-- C12: for two circles with distinct centres (unit contact normal `n`) and
`m1 + m2` not zero, the normal velocities produced by `resolveCollisionBetween`
are those of the mass-weighted two-body restitution formula with
`e = Config::restitution`, and the relative normal velocity is reversed and
scaled by `e`: `v2n' - v1n' = -e (v2n - v1n)`. -/
theorem resolveCollisionBetween_restitution (ops : VecOps K) (one two : Body K)
    (hE : Euclidean ops (two.position.sub one.position))
    (hd0 : 0 < ops.norm (two.position.sub one.position))
    (hM : one.mass + two.mass ≠ 0) :
    (resolveCollisionBetween ops one two).1.velocity.dot
          (ops.getUnit (two.position.sub one.position))
        = (one.mass * one.velocity.dot (ops.getUnit (two.position.sub one.position))
            + two.mass * two.velocity.dot (ops.getUnit (two.position.sub one.position))
            + two.mass * Config.restitution
              * (two.velocity.dot (ops.getUnit (two.position.sub one.position))
                - one.velocity.dot (ops.getUnit (two.position.sub one.position))))
          / (one.mass + two.mass)
      ∧ (resolveCollisionBetween ops one two).2.velocity.dot
          (ops.getUnit (two.position.sub one.position))
        = (one.mass * one.velocity.dot (ops.getUnit (two.position.sub one.position))
            + two.mass * two.velocity.dot (ops.getUnit (two.position.sub one.position))
            + one.mass * Config.restitution
              * (one.velocity.dot (ops.getUnit (two.position.sub one.position))
                - two.velocity.dot (ops.getUnit (two.position.sub one.position))))
          / (one.mass + two.mass)
      ∧ (resolveCollisionBetween ops one two).2.velocity.dot
            (ops.getUnit (two.position.sub one.position))
          - (resolveCollisionBetween ops one two).1.velocity.dot
            (ops.getUnit (two.position.sub one.position))
        = -Config.restitution
          * (two.velocity.dot (ops.getUnit (two.position.sub one.position))
            - one.velocity.dot (ops.getUnit (two.position.sub one.position))) := by
  have hn := hE.dot_getUnit (ne_of_gt hd0)
  obtain ⟨h1, h2, _, _⟩ := resolveCollisionBetweenWith_velocity ops Config.restitution one two
  have e1 := (Vec.dot_replace_normal one.velocity _
    ((one.velocity.dot (ops.getUnit (two.position.sub one.position))
          * (one.mass - Config.restitution * two.mass)
        + two.velocity.dot (ops.getUnit (two.position.sub one.position))
          * (1 + Config.restitution) * two.mass)
      / (one.mass + two.mass)) hn).1
  have e2 := (Vec.dot_replace_normal two.velocity _
    ((two.velocity.dot (ops.getUnit (two.position.sub one.position))
          * (two.mass - Config.restitution * one.mass)
        + one.velocity.dot (ops.getUnit (two.position.sub one.position))
          * (1 + Config.restitution) * one.mass)
      / (one.mass + two.mass)) hn).1
  rw [← h1] at e1
  rw [← h2] at e2
  simp only [resolveCollisionBetween]
  rw [e1, e2]
  generalize one.velocity.dot (ops.getUnit (two.position.sub one.position)) = a
  generalize two.velocity.dot (ops.getUnit (two.position.sub one.position)) = b
  refine ⟨?_, ?_, ?_⟩
  · congr 1
    ring
  · congr 1
    ring
  · field_simp
    ring

/-- C12, witness: centres (0,0) and (3,4), masses 1 and 2. -/
theorem resolveCollisionBetween_restitution_witness :
    (resolveCollisionBetween ratOps (⟨⟨0, 0⟩, ⟨1, 2⟩, 1, 6⟩ : Body ℚ)
            ⟨⟨3, 4⟩, ⟨-3, 1⟩, 2, 6⟩).2.velocity.dot (ratOps.getUnit ((⟨3, 4⟩ : Vec ℚ).sub ⟨0, 0⟩))
          - (resolveCollisionBetween ratOps (⟨⟨0, 0⟩, ⟨1, 2⟩, 1, 6⟩ : Body ℚ)
            ⟨⟨3, 4⟩, ⟨-3, 1⟩, 2, 6⟩).1.velocity.dot (ratOps.getUnit ((⟨3, 4⟩ : Vec ℚ).sub ⟨0, 0⟩))
        = -Config.restitution
          * ((⟨-3, 1⟩ : Vec ℚ).dot (ratOps.getUnit ((⟨3, 4⟩ : Vec ℚ).sub ⟨0, 0⟩))
            - (⟨1, 2⟩ : Vec ℚ).dot (ratOps.getUnit ((⟨3, 4⟩ : Vec ℚ).sub ⟨0, 0⟩))) :=
  (resolveCollisionBetween_restitution ratOps (⟨⟨0, 0⟩, ⟨1, 2⟩, 1, 6⟩ : Body ℚ)
    ⟨⟨3, 4⟩, ⟨-3, 1⟩, 2, 6⟩ ratOps_euclidean_3_4.1
    (by rw [ratOps_euclidean_3_4.2]; norm_num) (by norm_num)).2.2

/-- C13: for two circles with distinct centres (unit contact normal `n`),
`resolveCollisionBetween` leaves the tangential velocity component of each body
unchanged: `v' - (v'.n) n = v - (v.n) n`.  The identity does not depend on the
value of the new normal speed. -/
theorem resolveCollisionBetween_tangent (ops : VecOps K) (one two : Body K)
    (hE : Euclidean ops (two.position.sub one.position))
    (hd0 : 0 < ops.norm (two.position.sub one.position)) :
    (ops.getUnit (two.position.sub one.position)).dot
          (ops.getUnit (two.position.sub one.position)) = 1
      ∧ (resolveCollisionBetween ops one two).1.velocity.sub
          ((ops.getUnit (two.position.sub one.position)).smul
            ((resolveCollisionBetween ops one two).1.velocity.dot
              (ops.getUnit (two.position.sub one.position))))
        = one.velocity.sub ((ops.getUnit (two.position.sub one.position)).smul
            (one.velocity.dot (ops.getUnit (two.position.sub one.position))))
      ∧ (resolveCollisionBetween ops one two).2.velocity.sub
          ((ops.getUnit (two.position.sub one.position)).smul
            ((resolveCollisionBetween ops one two).2.velocity.dot
              (ops.getUnit (two.position.sub one.position))))
        = two.velocity.sub ((ops.getUnit (two.position.sub one.position)).smul
            (two.velocity.dot (ops.getUnit (two.position.sub one.position)))) := by
  have hn := hE.dot_getUnit (ne_of_gt hd0)
  obtain ⟨h1, h2, _, _⟩ := resolveCollisionBetweenWith_velocity ops Config.restitution one two
  simp only [resolveCollisionBetween]
  rw [h1, h2]
  exact ⟨hn, (Vec.dot_replace_normal one.velocity _ _ hn).2.1,
    (Vec.dot_replace_normal two.velocity _ _ hn).2.1⟩

/-- C13, witness: centres (0,0) and (3,4), masses 1 and 2. -/
theorem resolveCollisionBetween_tangent_witness :
    (resolveCollisionBetween ratOps (⟨⟨0, 0⟩, ⟨1, 2⟩, 1, 6⟩ : Body ℚ)
          ⟨⟨3, 4⟩, ⟨-3, 1⟩, 2, 6⟩).1.velocity.sub
        ((ratOps.getUnit ((⟨3, 4⟩ : Vec ℚ).sub ⟨0, 0⟩)).smul
          ((resolveCollisionBetween ratOps (⟨⟨0, 0⟩, ⟨1, 2⟩, 1, 6⟩ : Body ℚ)
            ⟨⟨3, 4⟩, ⟨-3, 1⟩, 2, 6⟩).1.velocity.dot
              (ratOps.getUnit ((⟨3, 4⟩ : Vec ℚ).sub ⟨0, 0⟩))))
      = (⟨1, 2⟩ : Vec ℚ).sub ((ratOps.getUnit ((⟨3, 4⟩ : Vec ℚ).sub ⟨0, 0⟩)).smul
          ((⟨1, 2⟩ : Vec ℚ).dot (ratOps.getUnit ((⟨3, 4⟩ : Vec ℚ).sub ⟨0, 0⟩)))) :=
  (resolveCollisionBetween_tangent ratOps (⟨⟨0, 0⟩, ⟨1, 2⟩, 1, 6⟩ : Body ℚ)
    ⟨⟨3, 4⟩, ⟨-3, 1⟩, 2, 6⟩ ratOps_euclidean_3_4.1
    (by rw [ratOps_euclidean_3_4.2]; norm_num)).2.1

/-! ## C15 and C16: momentum and energy -/

/-- C15: for `m1 + m2` not zero and whatever the contact normal returned by
`getUnit` is, `resolveCollisionBetween` keeps the masses and preserves the total
linear momentum as a vector, `m1 v1' + m2 v2' = m1 v1 + m2 v2`; the same holds
for every restitution coefficient. -/
theorem resolveCollisionBetween_momentum (ops : VecOps K) (one two : Body K)
    (hM : one.mass + two.mass ≠ 0) :
    ((resolveCollisionBetween ops one two).1.velocity.smul
          (resolveCollisionBetween ops one two).1.mass).add
        ((resolveCollisionBetween ops one two).2.velocity.smul
          (resolveCollisionBetween ops one two).2.mass)
        = (one.velocity.smul one.mass).add (two.velocity.smul two.mass)
      ∧ (resolveCollisionBetween ops one two).1.mass = one.mass
      ∧ (resolveCollisionBetween ops one two).2.mass = two.mass
      ∧ ∀ e : K,
          ((resolveCollisionBetweenWith ops e one two).1.velocity.smul one.mass).add
            ((resolveCollisionBetweenWith ops e one two).2.velocity.smul two.mass)
          = (one.velocity.smul one.mass).add (two.velocity.smul two.mass) := by
  have hgen : ∀ e : K,
      ((resolveCollisionBetweenWith ops e one two).1.velocity.smul one.mass).add
        ((resolveCollisionBetweenWith ops e one two).2.velocity.smul two.mass)
      = (one.velocity.smul one.mass).add (two.velocity.smul two.mass) := by
    intro e
    simp only [resolveCollisionBetweenWith]
    generalize ops.getUnit (two.position.sub one.position) = n
    simp only [Vec.sub, Vec.add, Vec.smul, Vec.dot]
    apply Vec.ext_xy
    · simp only
      field_simp
      ring
    · simp only
      field_simp
      ring
  exact ⟨hgen Config.restitution, rfl, rfl, hgen⟩

/-- C15, witness: centres (0,0) and (3,4), masses 1 and 2: the total momentum
stays `1 * (1,2) + 2 * (-3,1)`. -/
theorem resolveCollisionBetween_momentum_witness :
    ((resolveCollisionBetween ratOps (⟨⟨0, 0⟩, ⟨1, 2⟩, 1, 6⟩ : Body ℚ)
          ⟨⟨3, 4⟩, ⟨-3, 1⟩, 2, 6⟩).1.velocity.smul
        (resolveCollisionBetween ratOps (⟨⟨0, 0⟩, ⟨1, 2⟩, 1, 6⟩ : Body ℚ)
          ⟨⟨3, 4⟩, ⟨-3, 1⟩, 2, 6⟩).1.mass).add
      ((resolveCollisionBetween ratOps (⟨⟨0, 0⟩, ⟨1, 2⟩, 1, 6⟩ : Body ℚ)
          ⟨⟨3, 4⟩, ⟨-3, 1⟩, 2, 6⟩).2.velocity.smul
        (resolveCollisionBetween ratOps (⟨⟨0, 0⟩, ⟨1, 2⟩, 1, 6⟩ : Body ℚ)
          ⟨⟨3, 4⟩, ⟨-3, 1⟩, 2, 6⟩).2.mass)
      = ((⟨1, 2⟩ : Vec ℚ).smul 1).add ((⟨-3, 1⟩ : Vec ℚ).smul 2) :=
  (resolveCollisionBetween_momentum ratOps (⟨⟨0, 0⟩, ⟨1, 2⟩, 1, 6⟩ : Body ℚ)
    ⟨⟨3, 4⟩, ⟨-3, 1⟩, 2, 6⟩ (by norm_num)).1

/-- The normal part of the kinetic energy does not grow under the two-body
restitution formula with a coefficient in `[0, 1]`. -/
theorem restitution_energy_le (m1 m2 e a b : K) (hm1 : 0 < m1) (hm2 : 0 < m2)
    (he0 : 0 ≤ e) (he1 : e ≤ 1) :
    m1 * (((a * (m1 - e * m2) + b * (1 + e) * m2) / (m1 + m2))
          * ((a * (m1 - e * m2) + b * (1 + e) * m2) / (m1 + m2)) - a * a)
      + m2 * (((b * (m2 - e * m1) + a * (1 + e) * m1) / (m1 + m2))
          * ((b * (m2 - e * m1) + a * (1 + e) * m1) / (m1 + m2)) - b * b)
      ≤ 0 := by
  have hM : 0 < m1 + m2 := add_pos hm1 hm2
  have hM' : m1 + m2 ≠ 0 := ne_of_gt hM
  have key : m1 * (((a * (m1 - e * m2) + b * (1 + e) * m2) / (m1 + m2))
          * ((a * (m1 - e * m2) + b * (1 + e) * m2) / (m1 + m2)) - a * a)
      + m2 * (((b * (m2 - e * m1) + a * (1 + e) * m1) / (m1 + m2))
          * ((b * (m2 - e * m1) + a * (1 + e) * m1) / (m1 + m2)) - b * b)
      = -((1 + e) * (1 - e) * (m1 * m2) * ((a - b) * (a - b)) / (m1 + m2)) := by
    field_simp
    ring
  rw [key, neg_nonpos]
  apply div_nonneg _ (le_of_lt hM)
  apply mul_nonneg
  · apply mul_nonneg
    · apply mul_nonneg <;> linarith
    · exact le_of_lt (mul_pos hm1 hm2)
  · exact mul_self_nonneg _

/-- C16: for masses `m1, m2 > 0`, two circles with distinct centres (unit contact
normal) and any restitution coefficient `e` in `[0, 1]`, the total kinetic
energy after the resolution is at most the total kinetic energy before; in
particular this holds for `resolveCollisionBetween`, whose coefficient is 0.8. -/
theorem resolveCollisionBetween_energy (ops : VecOps K) (e : K) (one two : Body K)
    (hE : Euclidean ops (two.position.sub one.position))
    (hd0 : 0 < ops.norm (two.position.sub one.position))
    (hm1 : 0 < one.mass) (hm2 : 0 < two.mass) (he0 : 0 ≤ e) (he1 : e ≤ 1) :
    kineticEnergy (resolveCollisionBetweenWith ops e one two).1
          + kineticEnergy (resolveCollisionBetweenWith ops e one two).2
        ≤ kineticEnergy one + kineticEnergy two
      ∧ kineticEnergy (resolveCollisionBetween ops one two).1
          + kineticEnergy (resolveCollisionBetween ops one two).2
        ≤ kineticEnergy one + kineticEnergy two := by
  have hn := hE.dot_getUnit (ne_of_gt hd0)
  have hgen : ∀ c : K, 0 ≤ c → c ≤ 1 →
      kineticEnergy (resolveCollisionBetweenWith ops c one two).1
          + kineticEnergy (resolveCollisionBetweenWith ops c one two).2
        ≤ kineticEnergy one + kineticEnergy two := by
    intro c hc0 hc1
    obtain ⟨h1, h2, h3, h4⟩ := resolveCollisionBetweenWith_velocity ops c one two
    simp only [kineticEnergy, h3, h4]
    rw [h1, h2, (Vec.dot_replace_normal one.velocity _ _ hn).2.2,
      (Vec.dot_replace_normal two.velocity _ _ hn).2.2]
    have hle := restitution_energy_le one.mass two.mass c
      (one.velocity.dot (ops.getUnit (two.position.sub one.position)))
      (two.velocity.dot (ops.getUnit (two.position.sub one.position))) hm1 hm2 hc0 hc1
    linarith
  refine ⟨hgen e he0 he1, ?_⟩
  have h8 : (0 : K) ≤ Config.restitution ∧ (Config.restitution : K) ≤ 1 := by
    simp only [Config.restitution]
    constructor <;> norm_num
  exact hgen Config.restitution h8.1 h8.2

/-- C16, witness: centres (0,0) and (3,4), masses 1 and 2, coefficient 1/2. -/
theorem resolveCollisionBetween_energy_witness :
    kineticEnergy (resolveCollisionBetween ratOps (⟨⟨0, 0⟩, ⟨1, 2⟩, 1, 6⟩ : Body ℚ)
          ⟨⟨3, 4⟩, ⟨-3, 1⟩, 2, 6⟩).1
        + kineticEnergy (resolveCollisionBetween ratOps (⟨⟨0, 0⟩, ⟨1, 2⟩, 1, 6⟩ : Body ℚ)
          ⟨⟨3, 4⟩, ⟨-3, 1⟩, 2, 6⟩).2
      ≤ kineticEnergy (⟨⟨0, 0⟩, ⟨1, 2⟩, 1, 6⟩ : Body ℚ)
        + kineticEnergy (⟨⟨3, 4⟩, ⟨-3, 1⟩, 2, 6⟩ : Body ℚ) :=
  (resolveCollisionBetween_energy ratOps (1 / 2) (⟨⟨0, 0⟩, ⟨1, 2⟩, 1, 6⟩ : Body ℚ)
    ⟨⟨3, 4⟩, ⟨-3, 1⟩, 2, 6⟩ ratOps_euclidean_3_4.1
    (by rw [ratOps_euclidean_3_4.2]; norm_num) (by norm_num) (by norm_num) (by norm_num)
    (by norm_num)).2

/-! ## C4: circles that are apart, within a tick -/

end Physics
